import Mathlib

/-!
# TextEditor (`src/main.c`): line buffer, editor state, input dispatcher and renderer

A shallow embedding of the editing core of `src/main.c`.

Modelling conventions.

* A byte (`char`) is a `Nat`; the key codes compared against are all below 128.
* `size_t` values are `Nat`; every `size_t` addition, subtraction, increment and
  decrement of the source is taken modulo `2 ^ 64` (`size_add`, `size_sub`).
* The storage of a line (`SubBuffer.data`, a heap block) is a total map from
  byte offsets to bytes.  `realloc` is taken to succeed and to keep the bytes
  it finds; the capacity that `insert_line` requests is not enforced by the
  functional model.
* Indexing `buf->data[y]` with `y` outside the buffer, writing
  `insert_buf[insert_n]` outside the 30 byte array, and the loop of `delete_char`
  running off a line of stored size 0, have no defined behaviour in C: the
  embedded functions return `none` there.
* Each line has its own storage map, so the model says what `insert_line` does
  to the bytes of the line at the cursor row only. What it reads and writes
  outside the storage it asked for is given by `insert_line_accesses`; the model
  does not say where those bytes lie, and no statement about the other lines
  after `insert_line` is made.
* `read_keypress` is an input: `handle_keypress` receives the byte as argument.
* The drawing functions return the bytes they `write` to the terminal; a function
  that indexes the buffer returns them in a `Drawn`, whose flag `ok` is `false`
  when a row outside the buffer was indexed.
* `buffer_from_file` receives the bytes of the opened file; `fopen`, `malloc` and
  `realloc` are taken to succeed.
-/

namespace TextEditor

/-- Modulus of `size_t` arithmetic, `2 ^ 64`. -/
def SIZE_MOD : Nat := 18446744073709551616

/-- Addition of two `size_t` values. -/
def size_add (a b : Nat) : Nat := (a + b) % SIZE_MOD

/-- Subtraction of two `size_t` values: `a - b` modulo `2 ^ 64`, which wraps around
when `a < b`; it is `(a + SIZE_MOD - b) % SIZE_MOD` in both cases. -/
def size_sub (a b : Nat) : Nat :=
  if b ≤ a then (a - b) % SIZE_MOD else (a + SIZE_MOD - b) % SIZE_MOD

/-- The source's `enum Mode`. -/
inductive Mode where
  | Normal
  | Insert
  deriving DecidableEq

/-- The source's `#define InsertBufMax 30`. -/
def InsertBufMax : Nat := 30

/-- The source's `struct Cursor`. -/
structure Cursor where
  x : Nat
  y : Nat
  deriving DecidableEq

/-- The source's `struct State`; `insert_buf` is the 30 byte array. -/
structure State where
  cursor : Cursor
  offset : Nat
  rows : Nat
  cols : Nat
  file_name : List Nat
  insert_buf : List Nat
  insert_n : Nat
  mode : Mode
  deriving DecidableEq

/-- The source's `struct SubBuffer`: the storage of one line and its stored length. -/
structure SubBuffer where
  data : Nat → Nat
  size : Nat

/-- The source's `struct Buffer`; the field `rows` of the source is the number of
entries of `data`. -/
structure Buffer where
  data : List SubBuffer

/-- The field `rows` of `struct Buffer`. -/
def Buffer.rows (buf : Buffer) : Nat := buf.data.length

/-- The bytes `data[0 .. size)` of a line. -/
def SubBuffer.content (line : SubBuffer) : List Nat :=
  (List.range line.size).map line.data

/-- A line as `buffer_from_file` stores it: the bytes `bs`, then the NUL written by
`buf_line.data[buf_line.size] = 0`, with stored length `strlen = bs.length`. -/
def SubBuffer.ofBytes (bs : List Nat) : SubBuffer :=
  { data := fun i => bs.getD i 0, size := bs.length }

/-- The macro `CTRL(x)` of `<sys/ttydefaults.h>`: `x & 037`. -/
def CTRL (c : Char) : Nat := Nat.land c.toNat 0x1f

/-- The source's `new_state`: `ws_row`, `ws_col` are the window size read by `ioctl`,
`file_name` is `argv[1]`. -/
def new_state (ws_row ws_col : Nat) (file_name : List Nat) : State :=
  { cols := ws_col
    rows := ws_row
    offset := 0
    cursor := { x := 0, y := 0 }
    file_name := file_name
    insert_buf := List.replicate InsertBufMax 0
    insert_n := 0
    mode := Mode.Normal }

/-- The libc `memmove(mem + dst, mem + src, len)` inside one block. -/
def memmove (mem : Nat → Nat) (dst src len : Nat) : Nat → Nat :=
  fun i => if dst ≤ i ∧ i < dst + len then mem (src + (i - dst)) else mem i

/-- The `n` bytes that libc `strncpy(_, src, n)` writes, `src` being the pending
array: the bytes of `src` before its first NUL (at most `n`), then NUL padding up to
`n` bytes. -/
def strncpy_bytes (src : List Nat) (n : Nat) : List Nat :=
  let pre := (src.take n).takeWhile (fun b => b ≠ 0)
  pre ++ List.replicate (n - pre.length) 0

/-- The libc `strncpy(mem + dst, src, n)`. -/
def strncpy (mem : Nat → Nat) (dst : Nat) (src : List Nat) (n : Nat) : Nat → Nat :=
  fun i => if dst ≤ i ∧ i < dst + n then (strncpy_bytes src n).getD (i - dst) 0 else mem i

/-- The source's `insert_line`, statement by statement: the line at the cursor row is
looked up; `realloc` keeps the bytes; `line->size += insert_n`; `memmove` of
`size - insert_n + 1` bytes from column `x` to column `x + insert_n`; `strncpy` of
`insert_n` pending bytes to column `x`; `memset` of the pending array and
`insert_n = 0`. -/
def insert_line (buf : Buffer) (state : State) : Option (Buffer × State) :=
  match buf.data[state.cursor.y]? with
  | none => none
  | some line =>
    let size := size_add line.size state.insert_n
    let len := size_add (size_sub size state.insert_n) 1
    let moved := memmove line.data (state.cursor.x + state.insert_n) state.cursor.x len
    let copied := strncpy moved state.cursor.x state.insert_buf state.insert_n
    some ({ buf with data := buf.data.set state.cursor.y { data := copied, size := size } },
          { state with insert_buf := List.replicate InsertBufMax 0, insert_n := 0 })

/-- The loop of `delete_char`, `k` iterations from index `i`:
`data[i] = data[i + 1]; ++i`. -/
def delete_loop : Nat → Nat → (Nat → Nat) → (Nat → Nat)
  | 0, _, mem => mem
  | k + 1, i, mem => delete_loop k (i + 1) (Function.update mem i (mem (i + 1)))

/-- The value of `line->size - 1` in `delete_char`, a `size_t` subtraction: the bound
of the loop and the index of the NUL written after it. -/
def delete_char_last (line : SubBuffer) : Nat := size_sub line.size 1

/-- The source's `delete_char`; the loop `for (i = x; i < size - 1; ++i)` runs
`(size - 1) - x` times when `x < size - 1` and not at all otherwise. The loop reads the
indices up to `size - 1` and the NUL is written at `size - 1`: when that index is not
one of the `size` bytes of the line (stored size 0, where `size - 1` wraps around) the
loop runs off the storage of the line, which has no defined behaviour: `none`. -/
def delete_char (buf : Buffer) (state : State) : Option (Buffer × State) :=
  match buf.data[state.cursor.y]? with
  | none => none
  | some line =>
    let last := delete_char_last line
    if last < line.size then
      let shifted := delete_loop (last - state.cursor.x) state.cursor.x line.data
      let ended := Function.update shifted last 0
      some ({ buf with data := buf.data.set state.cursor.y { data := ended, size := last } },
            state)
    else none

/-- The source's `handle_keypress` on the byte `c` that `read_keypress` returned;
the third component is the returned `int`. -/
def handle_keypress (buf : Buffer) (state : State) (c : Nat) : Option (Buffer × State × Nat) :=
  let half_height := state.rows / 2
  if state.mode = Mode.Insert then
    if state.insert_n < InsertBufMax then
      let s1 : State :=
        { state with insert_buf := state.insert_buf.set state.insert_n c
                     insert_n := size_add state.insert_n 1 }
      match (if s1.insert_n = InsertBufMax - 1 then insert_line buf s1 else some (buf, s1)) with
      | none => none
      | some (b2, s2) =>
        if c = CTRL 'o' then
          match insert_line b2 s2 with
          | none => none
          | some (b3, s3) => some (b3, { s3 with mode := Mode.Normal }, 0)
        else some (b2, s2, 0)
    else none
  else if c = 'h'.toNat then
    if state.cursor.x ≠ 0 then
      some (buf, { state with cursor := { state.cursor with x := size_sub state.cursor.x 1 } }, 0)
    else some (buf, state, 0)
  else if c = 'j'.toNat then
    if state.cursor.y ≠ state.rows then
      some (buf, { state with cursor := { state.cursor with y := size_add state.cursor.y 1 } }, 0)
    else if state.offset ≠ state.cols then
      some (buf, { state with offset := size_add state.offset 1 }, 0)
    else some (buf, state, 0)
  else if c = 'k'.toNat then
    if state.cursor.y ≠ 0 then
      some (buf, { state with cursor := { state.cursor with y := size_sub state.cursor.y 1 } }, 0)
    else if state.offset ≠ 0 then
      some (buf, { state with offset := size_sub state.offset 1 }, 0)
    else some (buf, state, 0)
  else if c = 'l'.toNat then
    if state.cursor.y ≠ state.rows then
      some (buf, { state with cursor := { state.cursor with x := size_add state.cursor.x 1 } }, 0)
    else some (buf, state, 0)
  else if c = 'i'.toNat then
    some (buf, { state with mode := Mode.Insert }, 0)
  else if c = 'x'.toNat then
    match delete_char buf state with
    | none => none
    | some (b, s) => some (b, s, 0)
  else if c = CTRL 'd' then
    if size_add state.cursor.y half_height > state.rows then
      some (buf, { state with cursor := { state.cursor with y := state.rows } }, 0)
    else
      some (buf, { state with cursor := { state.cursor with y := size_add state.cursor.y half_height } }, 0)
  else if c = CTRL 'u' then
    if state.cursor.y < half_height then
      some (buf, { state with cursor := { state.cursor with y := 0 } }, 0)
    else
      some (buf, { state with cursor := { state.cursor with y := size_sub state.cursor.y half_height } }, 0)
  else if c = CTRL 'q' then
    some (buf, state, 1)
  else some (buf, state, 0)

/-- The loop of `main` without the redraw: `handle_keypress` on each byte of `keys`
in turn, until it returns non-zero. -/
def run_keys : Buffer → State → List Nat → Option (Buffer × State)
  | buf, state, [] => some (buf, state)
  | buf, state, c :: cs =>
    match handle_keypress buf state c with
    | none => none
    | some (b, s, r) => if r = 0 then run_keys b s cs else some (b, s)

/-- The column that `update_screen` moves the terminal cursor to:
`cursor.x < size ? cursor.x : size` for the line at the cursor row. -/
def screen_cursor_x (buf : Buffer) (state : State) : Option Nat :=
  match buf.data[state.cursor.y]? with
  | none => none
  | some line => some (if state.cursor.x < line.size then state.cursor.x else line.size)

/-- The bytes of `"hello\n"`. -/
def hello_bytes : List Nat := [104, 101, 108, 108, 111, 10]

/-- A buffer holding the single line `"hello\n"`. -/
def hello : Buffer := { data := [SubBuffer.ofBytes hello_bytes] }

/-- A state with the cursor at column `x` of row 0 and nothing pending. -/
def cursor_at (x : Nat) : State :=
  { new_state 24 80 [] with cursor := { x := x, y := 0 } }

/-- The pending count is below `InsertBufMax - 1` and the pending array has its 30 bytes. -/
def pending_ok (state : State) : Prop :=
  state.insert_n < InsertBufMax - 1 ∧ state.insert_buf.length = InsertBufMax

/-- The initial state for a 24 by 80 window. -/
def initial : State := new_state 24 80 []

/-- The initial state switched to Insert mode. -/
def inserting : State := { initial with mode := Mode.Insert }

/-- What a drawing function has written, and whether it ran to its end: `ok` is
`false` when it indexed `buf->data` outside the buffer, `bytes` being what it had
written before that. -/
structure Drawn where
  bytes : List Nat
  ok : Bool
  deriving DecidableEq

/-- The bytes of a string literal of the source. -/
def str_bytes (s : String) : List Nat := s.toList.map Char.toNat

/-- The conversion of a `size_t` to the `int` parameter of `move_cursor`. -/
def to_int (n : Nat) : Int :=
  if n % 4294967296 < 2147483648 then (n % 4294967296 : Nat)
  else ((n % 4294967296 : Nat) : Int) - 4294967296

/-- The decimal digits that `%zu` prints. -/
def fmt_zu (n : Nat) : List Nat := (Nat.toDigits 10 n).map Char.toNat

/-- The characters that `%d` prints. -/
def fmt_d (i : Int) : List Nat :=
  if i < 0 then 45 :: fmt_zu (-i).toNat else fmt_zu i.toNat

/-- A zeroed `char buf[cap]` after `snprintf(buf, cap, ...)` produced `text`: at most
`cap - 1` bytes of `text`, the rest of the `cap` bytes NUL. -/
def snprintf_buf (cap : Nat) (text : List Nat) : List Nat :=
  text.take (cap - 1) ++ List.replicate (cap - (text.take (cap - 1)).length) 0

/-- The source's `move_cursor`: the 27 bytes it writes; `y + 1` and `x + 1` are taken
in the integers. -/
def move_cursor (x y : Int) : List Nat :=
  snprintf_buf 27 ([27, 91] ++ fmt_d (y + 1) ++ [59] ++ fmt_d (x + 1) ++ [72])

/-- The source's `clear_screen`: the 4 and the 3 bytes it writes. -/
def clear_screen : List Nat := [27, 91, 50, 74] ++ [27, 91, 72]

/-- The loop of `draw_buffer_contents`, `k` iterations from row `i`:
`write(STDOUT_FILENO, buf->data[i].data, buf->data[i].size); ++i`. -/
def draw_lines : Nat → Nat → Buffer → List Nat → Drawn
  | 0, _, _, out => { bytes := out, ok := true }
  | k + 1, i, buf, out =>
    match buf.data[i]? with
    | none => { bytes := out, ok := false }
    | some line => draw_lines k (i + 1) buf (out ++ line.content)

/-- The source's `draw_buffer_contents`; the loop `for (i = offset; i < max_lines - 1; ++i)`
runs `(max_lines - 1) - offset` times when `offset < max_lines - 1` and not at all
otherwise, `max_lines - 1` being a `size_t` subtraction. -/
def draw_buffer_contents (buf : Buffer) (state : State) : Drawn :=
  let max_lines := if buf.rows < state.rows then buf.rows else state.rows
  draw_lines (size_sub max_lines 1 - state.offset) state.offset buf (move_cursor 0 0)

/-- The source's `draw_empty_space`. -/
def draw_empty_space (src : Nat) (state : State) : List Nat :=
  if src > state.rows then []
  else move_cursor 0 (to_int src) ++ [126]
    ++ (List.replicate (state.rows - src) [10, 126]).flatten

/-- The 128 bytes of `buf` that `draw_status_line` writes after `move_cursor`. -/
def status_text (state : State) : List Nat :=
  snprintf_buf 128 (str_bytes " Normal | " ++ state.file_name.takeWhile (fun b => b ≠ 0)
    ++ str_bytes " | " ++ fmt_zu state.cursor.y ++ [58] ++ fmt_zu state.cursor.x ++ [32])

/-- The source's `draw_status_line`. -/
def draw_status_line (state : State) : List Nat :=
  move_cursor 0 (to_int state.rows) ++ status_text state

/-- The source's `update_screen`. -/
def update_screen (buf : Buffer) (state : State) : Drawn :=
  let head := clear_screen ++ draw_empty_space buf.rows state
  let drawn := draw_buffer_contents buf state
  if drawn.ok then
    match screen_cursor_x buf state with
    | none => { bytes := head ++ drawn.bytes ++ draw_status_line state, ok := false }
    | some cursor_x =>
      { bytes := head ++ drawn.bytes ++ draw_status_line state
          ++ move_cursor (to_int cursor_x) (to_int state.cursor.y)
        ok := true }
  else { bytes := head ++ drawn.bytes, ok := false }

/-- The libc `fgets(line, n, file)` on the unread bytes of the file: at most `k = n - 1`
bytes, up to and with the first newline; the bytes read and the bytes left. -/
def fgets : Nat → List Nat → List Nat × List Nat
  | 0, rest => ([], rest)
  | _ + 1, [] => ([], [])
  | k + 1, b :: rest =>
    if b = 10 then ([b], rest)
    else ((b :: (fgets k rest).1), (fgets k rest).2)

/-- The loop of `buffer_from_file` on the unread bytes of the file: `fgets` returns NULL
at the end of the file; otherwise the line is stored with `strlen` bytes and a NUL.
The first argument bounds the number of iterations. -/
def read_lines : Nat → List Nat → List SubBuffer
  | 0, _ => []
  | fuel + 1, file =>
    match file with
    | [] => []
    | _ :: _ =>
      SubBuffer.ofBytes ((fgets 511 file).1.takeWhile (fun b => b ≠ 0))
        :: read_lines fuel (fgets 511 file).2

/-- The source's `buffer_from_file` on the bytes of the opened file; every iteration
reads at least one byte, so `file.length` iterations are enough. -/
def buffer_from_file (file : List Nat) : Buffer :=
  { data := read_lines file.length file }

/-! ## Storage accessed by `insert_line` -/

/-- The number of bytes that `insert_line` asks `realloc` for. -/
def insert_line_capacity (line : SubBuffer) (state : State) : Nat :=
  size_add line.size state.insert_n

/-- The number of bytes that the `memmove` of `insert_line` moves. -/
def insert_line_moved (line : SubBuffer) (state : State) : Nat :=
  size_add (size_sub (size_add line.size state.insert_n) state.insert_n) 1

/-- The index ranges `[lo, hi)` of the line's storage that `insert_line` accesses: the
source and the destination of `memmove`, and the destination of `strncpy`. -/
def insert_line_accesses (line : SubBuffer) (state : State) : List (Nat × Nat) :=
  [ (state.cursor.x, state.cursor.x + insert_line_moved line state),
    (state.cursor.x + state.insert_n,
      state.cursor.x + state.insert_n + insert_line_moved line state),
    (state.cursor.x, state.cursor.x + state.insert_n) ]

/-- A buffer holding the single empty line `""`. -/
def empty_line : Buffer := { data := [SubBuffer.ofBytes []] }

/-- A buffer holding the single line `"a"`. -/
def line_a : Buffer := { data := [SubBuffer.ofBytes [97]] }

/-- The initial state with the file name `f` and one pending byte `X`. -/
def one_pending : State :=
  { new_state 24 80 [102] with insert_buf := 88 :: List.replicate 29 0, insert_n := 1
                               mode := Mode.Insert }

/-- In Normal mode nothing is pending and the pending array is zeroed. -/
def normal_idle (state : State) : Prop :=
  state.mode = Mode.Normal →
    state.insert_n = 0 ∧ state.insert_buf = List.replicate InsertBufMax 0

/-- The state in which `insert_line` runs after `i`, Ctrl-O from the initial state: the
commit key byte is the one pending byte. -/
def commit_only : State :=
  { initial with insert_buf := 15 :: List.replicate 29 0, insert_n := 1
                 mode := Mode.Insert }

/-- The 60 bytes of a line of 59 bytes `a` and a line feed. -/
def long_bytes : List Nat := List.replicate 59 97 ++ [10]

/-- A buffer holding the single line `long_bytes`. -/
def long_line : Buffer := { data := [SubBuffer.ofBytes long_bytes] }

/-- The state in which `insert_line` runs after 60 `l`, `i`, `A`, Ctrl-O from the initial
state: the cursor at column 60, `A` and the commit key byte pending. -/
def at_line_end : State :=
  { initial with cursor := { x := 60, y := 0 }
                 insert_buf := 65 :: 15 :: List.replicate 28 0, insert_n := 2
                 mode := Mode.Insert }

theorem getElem?_map_range (f : Nat → Nat) (s i : Nat) :
    ((List.range s).map f)[i]? = if i < s then some (f i) else none := by
  by_cases h : i < s
  · simp [h, List.getElem?_range]
  · simp [h, List.getElem?_eq_none]
    omega

theorem delete_loop_apply (k : Nat) : ∀ (i : Nat) (mem : Nat → Nat) (j : Nat),
    delete_loop k i mem j = if i ≤ j ∧ j < i + k then mem (j + 1) else mem j := by
  induction k with
  | zero =>
    intro i mem j
    rw [if_neg (by omega)]
    rfl
  | succ k ih =>
    intro i mem j
    show delete_loop k (i + 1) (Function.update mem i (mem (i + 1))) j = _
    rw [ih]
    by_cases h1 : i + 1 ≤ j ∧ j < i + 1 + k
    · rw [if_pos h1, if_pos (by omega), Function.update_noteq (by omega)]
    · rw [if_neg h1]
      by_cases h2 : j = i
      · subst h2
        rw [Function.update_same, if_pos (by omega)]
      · rw [Function.update_noteq h2, if_neg (by omega)]

theorem delete_content (data : Nat → Nat) (s x : Nat) (hx : x < s) :
    (List.range (s - 1)).map (Function.update (delete_loop (s - 1 - x) x data) (s - 1) 0)
      = ((List.range s).map data).take x ++ ((List.range s).map data).drop (x + 1) := by
  have hlt : (List.take x (List.map data (List.range s))).length = x := by simp; omega
  apply List.ext_getElem?
  intro i
  rw [getElem?_map_range]
  by_cases his : i < s - 1
  · rw [if_pos his, Function.update_noteq (by omega), delete_loop_apply]
    by_cases hix : i < x
    · rw [if_neg (by omega), List.getElem?_append_left (by omega), List.getElem?_take, if_pos hix,
        getElem?_map_range, if_pos (by omega)]
    · rw [if_pos (by omega), List.getElem?_append_right (by omega), hlt, List.getElem?_drop,
        getElem?_map_range, if_pos (by omega)]
      congr 2
      omega
  · rw [if_neg his]
    by_cases hix : i < x
    · omega
    · rw [List.getElem?_append_right (by omega), hlt, List.getElem?_drop, getElem?_map_range,
        if_neg (by omega)]

theorem size_add_of_lt (a b : Nat) (h : a + b < SIZE_MOD) : size_add a b = a + b :=
  Nat.mod_eq_of_lt h

theorem size_add_le (a b : Nat) : size_add a b ≤ a + b :=
  Nat.mod_le _ _

theorem size_sub_of_le (a b : Nat) (h1 : b ≤ a) (h2 : a < SIZE_MOD) : size_sub a b = a - b := by
  unfold size_sub
  rw [if_pos h1]
  exact Nat.mod_eq_of_lt (by omega)

theorem size_sub_le (a b : Nat) (h1 : b ≤ a) : size_sub a b ≤ a - b := by
  unfold size_sub
  rw [if_pos h1]
  exact Nat.mod_le _ _

/-- The two branches of `size_sub` are the one wrap-around subtraction. -/
theorem size_sub_eq (a b : Nat) : size_sub a b = (a + SIZE_MOD - b) % SIZE_MOD := by
  unfold size_sub
  split
  · rename_i h
    have e : a + SIZE_MOD - b = (a - b) + SIZE_MOD := by omega
    rw [e, Nat.add_mod_right]
  · rfl

theorem size_dec (s : Nat) (h1 : 0 < s) (h2 : s < SIZE_MOD) : size_sub s 1 = s - 1 :=
  size_sub_of_le s 1 h1 h2

theorem content_length (line : SubBuffer) : line.content.length = line.size := by
  simp [SubBuffer.content]

theorem delete_char_eq (buf : Buffer) (state : State) (line : SubBuffer)
    (hy : buf.data[state.cursor.y]? = some line)
    (hpos : 0 < line.size) (hs : line.size < SIZE_MOD) :
    delete_char buf state = some
      ({ data := buf.data.set state.cursor.y
            { data := Function.update
                (delete_loop (line.size - 1 - state.cursor.x) state.cursor.x line.data)
                (line.size - 1) 0
              size := line.size - 1 } },
       state) := by
  have hlast : delete_char_last line = line.size - 1 := size_dec line.size hpos hs
  have hlt : line.size - 1 < line.size := by omega
  simp only [delete_char, hy, hlast, if_pos hlt]

theorem row_lt (buf : Buffer) (y : Nat) (line : SubBuffer) (hy : buf.data[y]? = some line) :
    y < buf.data.length := by
  rcases List.getElem?_eq_some.mp hy with ⟨h, _⟩
  exact h

theorem delete_char_removed (buf : Buffer) (state : State) (line : SubBuffer)
    (hy : buf.data[state.cursor.y]? = some line)
    (hx : state.cursor.x < line.size) (hs : line.size < SIZE_MOD) :
    ∃ buf1 line1, delete_char buf state = some (buf1, state)
      ∧ buf1.data[state.cursor.y]? = some line1
      ∧ line1.content = line.content.take state.cursor.x ++ line.content.drop (state.cursor.x + 1)
      ∧ line1.size = line.size - 1
      ∧ line1.data (line.size - 1) = 0
      ∧ buf1.data.length = buf.data.length
      ∧ ∀ j, j ≠ state.cursor.y → buf1.data[j]? = buf.data[j]? := by
  refine ⟨_, _, delete_char_eq buf state line hy (by omega) hs,
    List.getElem?_set_self (row_lt buf _ line hy), ?_, rfl, ?_, ?_, ?_⟩
  · exact delete_content line.data line.size state.cursor.x hx
  · exact Function.update_same _ _ _
  · simp
  · intro j hj
    exact List.getElem?_set_ne (Ne.symm hj)

theorem CTRL_d : CTRL 'd' = 4 := by decide
theorem CTRL_u : CTRL 'u' = 21 := by decide
theorem CTRL_q : CTRL 'q' = 17 := by decide
theorem key_h : 'h'.toNat = 104 := by decide
theorem key_j : 'j'.toNat = 106 := by decide
theorem key_k : 'k'.toNat = 107 := by decide
theorem key_l : 'l'.toNat = 108 := by decide
theorem key_i : 'i'.toNat = 105 := by decide
theorem key_x : 'x'.toNat = 120 := by decide

theorem insert_line_state (buf : Buffer) (state : State) (b : Buffer) (s : State)
    (h : insert_line buf state = some (b, s)) :
    s = { state with insert_buf := List.replicate InsertBufMax 0, insert_n := 0 } := by
  unfold insert_line at h
  split at h
  · exact absurd h (by simp)
  · simp only [Option.some.injEq, Prod.mk.injEq] at h
    exact h.2.symm

theorem delete_char_state (buf : Buffer) (state : State) (b : Buffer) (s : State)
    (h : delete_char buf state = some (b, s)) : s = state := by
  unfold delete_char at h
  split at h
  · exact absurd h (by simp)
  · simp only at h
    split at h
    · simp only [Option.some.injEq, Prod.mk.injEq] at h
      exact h.2.symm
    · exact absurd h (by simp)

theorem delete_char_last_lt (line : SubBuffer) (hpos : 0 < line.size) :
    delete_char_last line < line.size :=
  Nat.lt_of_le_of_lt (size_sub_le _ _ hpos) (by omega)

theorem insert_line_isSome (buf : Buffer) (state : State) (h : state.cursor.y < buf.data.length) :
    ∃ b, insert_line buf state
      = some (b, { state with insert_buf := List.replicate InsertBufMax 0, insert_n := 0 })
      ∧ b.data.length = buf.data.length := by
  unfold insert_line
  rw [List.getElem?_eq_getElem h]
  exact ⟨_, rfl, by simp⟩

theorem delete_char_isSome (buf : Buffer) (state : State) (line : SubBuffer)
    (hy : buf.data[state.cursor.y]? = some line) (hpos : 0 < line.size) :
    ∃ b, delete_char buf state = some (b, state) ∧ b.data.length = buf.data.length := by
  unfold delete_char
  rw [hy]
  simp only [if_pos (delete_char_last_lt line hpos)]
  exact ⟨_, rfl, by simp⟩

/-- On a line of stored size 0 the loop bound wraps around and `delete_char` runs off
the storage of the line. -/
theorem delete_char_empty (buf : Buffer) (state : State) (line : SubBuffer)
    (hy : buf.data[state.cursor.y]? = some line) (h0 : line.size = 0) :
    delete_char_last line = SIZE_MOD - 1 ∧ delete_char buf state = none := by
  have hlast : delete_char_last line = SIZE_MOD - 1 := by
    unfold delete_char_last
    rw [h0]
    decide
  refine ⟨hlast, ?_⟩
  unfold delete_char
  rw [hy]
  simp only [hlast, h0]
  rfl

theorem hk_h (buf : Buffer) (state : State) (hm : state.mode = Mode.Normal) :
    handle_keypress buf state 104 = some (buf,
      (if state.cursor.x ≠ 0 then
        { state with cursor := { state.cursor with x := size_sub state.cursor.x 1 } }
       else state), 0) := by
  unfold handle_keypress
  rw [if_neg (by rw [hm]; decide), if_pos (by decide)]
  split <;> rfl

theorem hk_j (buf : Buffer) (state : State) (hm : state.mode = Mode.Normal) :
    handle_keypress buf state 106 = some (buf,
      (if state.cursor.y ≠ state.rows then
        { state with cursor := { state.cursor with y := size_add state.cursor.y 1 } }
       else if state.offset ≠ state.cols then
        { state with offset := size_add state.offset 1 }
       else state), 0) := by
  unfold handle_keypress
  rw [if_neg (by rw [hm]; decide), if_neg (by decide), if_pos (by decide)]
  split
  · rfl
  · split <;> rfl

theorem hk_k (buf : Buffer) (state : State) (hm : state.mode = Mode.Normal) :
    handle_keypress buf state 107 = some (buf,
      (if state.cursor.y ≠ 0 then
        { state with cursor := { state.cursor with y := size_sub state.cursor.y 1 } }
       else if state.offset ≠ 0 then
        { state with offset := size_sub state.offset 1 }
       else state), 0) := by
  unfold handle_keypress
  rw [if_neg (by rw [hm]; decide), if_neg (by decide), if_neg (by decide), if_pos (by decide)]
  split
  · rfl
  · split <;> rfl

theorem hk_l (buf : Buffer) (state : State) (hm : state.mode = Mode.Normal) :
    handle_keypress buf state 108 = some (buf,
      (if state.cursor.y ≠ state.rows then
        { state with cursor := { state.cursor with x := size_add state.cursor.x 1 } }
       else state), 0) := by
  unfold handle_keypress
  rw [if_neg (by rw [hm]; decide), if_neg (by decide), if_neg (by decide), if_neg (by decide),
    if_pos (by decide)]
  split <;> rfl

theorem hk_i (buf : Buffer) (state : State) (hm : state.mode = Mode.Normal) :
    handle_keypress buf state 105 = some (buf, { state with mode := Mode.Insert }, 0) := by
  unfold handle_keypress
  rw [if_neg (by rw [hm]; decide), if_neg (by decide), if_neg (by decide), if_neg (by decide),
    if_neg (by decide), if_pos (by decide)]

theorem hk_x (buf : Buffer) (state : State) (hm : state.mode = Mode.Normal) :
    handle_keypress buf state 120 = (delete_char buf state).map (fun r => (r.1, r.2, 0)) := by
  unfold handle_keypress
  rw [if_neg (by rw [hm]; decide), if_neg (by decide), if_neg (by decide), if_neg (by decide),
    if_neg (by decide), if_neg (by decide), if_pos (by decide)]
  cases delete_char buf state <;> rfl

theorem hk_ctrl_d (buf : Buffer) (state : State) (hm : state.mode = Mode.Normal) :
    handle_keypress buf state 4 = some (buf,
      (if size_add state.cursor.y (state.rows / 2) > state.rows then
        { state with cursor := { state.cursor with y := state.rows } }
       else
        { state with cursor := { state.cursor with y := size_add state.cursor.y (state.rows / 2) } }),
      0) := by
  unfold handle_keypress
  rw [if_neg (by rw [hm]; decide), if_neg (by decide), if_neg (by decide), if_neg (by decide),
    if_neg (by decide), if_neg (by decide), if_neg (by decide), if_pos (by decide)]
  split <;> rfl

theorem hk_ctrl_u (buf : Buffer) (state : State) (hm : state.mode = Mode.Normal) :
    handle_keypress buf state 21 = some (buf,
      (if state.cursor.y < state.rows / 2 then
        { state with cursor := { state.cursor with y := 0 } }
       else
        { state with cursor :=
            { state.cursor with y := size_sub state.cursor.y (state.rows / 2) } }),
      0) := by
  unfold handle_keypress
  rw [if_neg (by rw [hm]; decide), if_neg (by decide), if_neg (by decide), if_neg (by decide),
    if_neg (by decide), if_neg (by decide), if_neg (by decide), if_neg (by decide),
    if_pos (by decide)]
  split <;> rfl

theorem hk_ctrl_q (buf : Buffer) (state : State) (hm : state.mode = Mode.Normal) :
    handle_keypress buf state 17 = some (buf, state, 1) := by
  unfold handle_keypress
  rw [if_neg (by rw [hm]; decide), if_neg (by decide), if_neg (by decide), if_neg (by decide),
    if_neg (by decide), if_neg (by decide), if_neg (by decide), if_neg (by decide),
    if_neg (by decide), if_pos (by decide)]

theorem hk_unbound (buf : Buffer) (state : State) (c : Nat) (hm : state.mode = Mode.Normal)
    (hc : c ≠ 104 ∧ c ≠ 106 ∧ c ≠ 107 ∧ c ≠ 108 ∧ c ≠ 105 ∧ c ≠ 120 ∧ c ≠ 4 ∧ c ≠ 21 ∧ c ≠ 17) :
    handle_keypress buf state c = some (buf, state, 0) := by
  obtain ⟨h1, h2, h3, h4, h5, h6, h7, h8, h9⟩ := hc
  unfold handle_keypress
  rw [if_neg (by rw [hm]; decide), if_neg (by rw [key_h]; exact h1), if_neg (by rw [key_j]; exact h2),
    if_neg (by rw [key_k]; exact h3), if_neg (by rw [key_l]; exact h4),
    if_neg (by rw [key_i]; exact h5), if_neg (by rw [key_x]; exact h6),
    if_neg (by rw [CTRL_d]; exact h7), if_neg (by rw [CTRL_u]; exact h8),
    if_neg (by rw [CTRL_q]; exact h9)]

theorem key_cases (c : Nat) :
    c = 104 ∨ c = 106 ∨ c = 107 ∨ c = 108 ∨ c = 105 ∨ c = 120 ∨ c = 4 ∨ c = 21 ∨ c = 17
    ∨ (c ≠ 104 ∧ c ≠ 106 ∧ c ≠ 107 ∧ c ≠ 108 ∧ c ≠ 105 ∧ c ≠ 120 ∧ c ≠ 4 ∧ c ≠ 21 ∧ c ≠ 17) := by
  omega

theorem hk_insert_oob (buf : Buffer) (state : State) (c : Nat) (hm : state.mode = Mode.Insert)
    (hn : ¬ state.insert_n < InsertBufMax) : handle_keypress buf state c = none := by
  unfold handle_keypress
  rw [if_pos hm, if_neg hn]

theorem succ_mod (n : Nat) (hn : n < InsertBufMax) : size_add n 1 = n + 1 := by
  apply size_add_of_lt
  unfold InsertBufMax at hn
  unfold SIZE_MOD
  omega

theorem hk_insert_buffered (buf : Buffer) (state : State) (c : Nat) (hm : state.mode = Mode.Insert)
    (hn : state.insert_n < InsertBufMax) (h29 : state.insert_n + 1 ≠ InsertBufMax - 1)
    (hc : c ≠ CTRL 'o') :
    handle_keypress buf state c = some (buf,
      { state with insert_buf := state.insert_buf.set state.insert_n c
                   insert_n := state.insert_n + 1 }, 0) := by
  unfold handle_keypress
  rw [if_pos hm, if_pos hn]
  simp only [succ_mod _ hn]
  rw [if_neg h29]
  simp only
  rw [if_neg hc]

theorem hk_insert_flush (buf : Buffer) (state : State) (c : Nat) (hm : state.mode = Mode.Insert)
    (h29 : state.insert_n + 1 = InsertBufMax - 1) (hc : c ≠ CTRL 'o') :
    handle_keypress buf state c
      = (insert_line buf { state with insert_buf := state.insert_buf.set state.insert_n c
                                      insert_n := state.insert_n + 1 }).map
          (fun r => (r.1, r.2, 0)) := by
  have hn : state.insert_n < InsertBufMax := by
    unfold InsertBufMax at *
    omega
  unfold handle_keypress
  rw [if_pos hm, if_pos hn]
  simp only [succ_mod _ hn]
  rw [if_pos h29]
  cases insert_line buf { state with insert_buf := state.insert_buf.set state.insert_n c
                                     insert_n := state.insert_n + 1 } with
  | none => rfl
  | some r =>
    simp only [Option.map_some']
    rw [if_neg hc]

theorem hk_insert_commit (buf : Buffer) (state : State) (hm : state.mode = Mode.Insert)
    (hn : state.insert_n < InsertBufMax) (h29 : state.insert_n + 1 ≠ InsertBufMax - 1) :
    handle_keypress buf state (CTRL 'o')
      = (insert_line buf { state with insert_buf := state.insert_buf.set state.insert_n (CTRL 'o')
                                      insert_n := state.insert_n + 1 }).map
          (fun r => (r.1, { r.2 with mode := Mode.Normal }, 0)) := by
  unfold handle_keypress
  rw [if_pos hm, if_pos hn]
  simp only [succ_mod _ hn]
  rw [if_neg h29]
  simp only
  rw [if_pos trivial]
  cases insert_line buf { state with insert_buf := state.insert_buf.set state.insert_n (CTRL 'o')
                                     insert_n := state.insert_n + 1 } <;> rfl

theorem hk_insert_flush_commit (buf : Buffer) (state : State) (hm : state.mode = Mode.Insert)
    (h29 : state.insert_n + 1 = InsertBufMax - 1) :
    handle_keypress buf state (CTRL 'o')
      = (insert_line buf { state with insert_buf := state.insert_buf.set state.insert_n (CTRL 'o')
                                      insert_n := state.insert_n + 1 }).bind
          (fun r => (insert_line r.1 r.2).map
            (fun q => (q.1, { q.2 with mode := Mode.Normal }, 0))) := by
  have hn : state.insert_n < InsertBufMax := by
    unfold InsertBufMax at *
    omega
  unfold handle_keypress
  rw [if_pos hm, if_pos hn]
  simp only [succ_mod _ hn]
  rw [if_pos h29]
  cases insert_line buf { state with insert_buf := state.insert_buf.set state.insert_n (CTRL 'o')
                                     insert_n := state.insert_n + 1 } with
  | none => rfl
  | some r =>
    simp only [Option.some_bind]
    rw [if_pos trivial]
    cases insert_line r.1 r.2 <;> rfl

theorem run_keys_nil (buf : Buffer) (state : State) : run_keys buf state [] = some (buf, state) :=
  rfl

theorem run_keys_cons_continue (buf : Buffer) (state : State) (c : Nat) (cs : List Nat)
    (b : Buffer) (s : State) (h : handle_keypress buf state c = some (b, s, 0)) :
    run_keys buf state (c :: cs) = run_keys b s cs := by
  show (match handle_keypress buf state c with
    | none => none
    | some (b, s, r) => if r = 0 then run_keys b s cs else some (b, s)) = _
  rw [h]
  rfl

theorem run_keys_preserves (P : State → Prop)
    (hstep : ∀ buf state c b s r, P state → handle_keypress buf state c = some (b, s, r) → P s) :
    ∀ (keys : List Nat) (buf : Buffer) (state : State) (b : Buffer) (s : State),
      P state → run_keys buf state keys = some (b, s) → P s := by
  intro keys
  induction keys with
  | nil =>
    intro buf state b s hP h
    simp only [run_keys, Option.some.injEq, Prod.mk.injEq] at h
    rw [← h.2]
    exact hP
  | cons c cs ih =>
    intro buf state b s hP h
    unfold run_keys at h
    cases hk : handle_keypress buf state c with
    | none =>
      rw [hk] at h
      exact absurd h (by simp)
    | some q =>
      obtain ⟨b1, s1, r⟩ := q
      rw [hk] at h
      have hP1 := hstep buf state c b1 s1 r hP hk
      by_cases hr : r = 0
      · simp only [hr, if_true] at h
        exact ih b1 s1 b s hP1 h
      · simp only [hr, if_false, Option.some.injEq, Prod.mk.injEq] at h
        rw [← h.2]
        exact hP1

theorem some_triple_inj {b b1 : Buffer} {s s1 : State} {r r1 : Nat}
    (h : (some (b1, s1, r1) : Option (Buffer × State × Nat)) = some (b, s, r)) :
    b = b1 ∧ s = s1 ∧ r = r1 := by
  simp only [Option.some.injEq, Prod.mk.injEq] at h
  exact ⟨h.1.symm, h.2.1.symm, h.2.2.symm⟩

/-- What a Normal-mode step leaves alone, and when it changes the mode. -/
theorem normal_step_facts (buf : Buffer) (state : State) (c : Nat) (b : Buffer) (s : State)
    (r : Nat) (hm : state.mode = Mode.Normal)
    (h : handle_keypress buf state c = some (b, s, r)) :
    s.insert_n = state.insert_n ∧ s.insert_buf = state.insert_buf ∧ s.rows = state.rows
      ∧ (s.mode = Mode.Insert ↔ c = 105) ∧ (s.mode = Mode.Insert ∨ s.mode = Mode.Normal) := by
  rcases key_cases c with hc | hc | hc | hc | hc | hc | hc | hc | hc | hc
  · subst hc
    rw [hk_h buf state hm] at h
    obtain ⟨_, rfl, _⟩ := some_triple_inj h
    split <;> simp [hm]
  · subst hc
    rw [hk_j buf state hm] at h
    obtain ⟨_, rfl, _⟩ := some_triple_inj h
    split
    · simp [hm]
    · split <;> simp [hm]
  · subst hc
    rw [hk_k buf state hm] at h
    obtain ⟨_, rfl, _⟩ := some_triple_inj h
    split
    · simp [hm]
    · split <;> simp [hm]
  · subst hc
    rw [hk_l buf state hm] at h
    obtain ⟨_, rfl, _⟩ := some_triple_inj h
    split <;> simp [hm]
  · subst hc
    rw [hk_i buf state hm] at h
    obtain ⟨_, rfl, _⟩ := some_triple_inj h
    simp
  · subst hc
    rw [hk_x buf state hm] at h
    cases hd : delete_char buf state with
    | none =>
      rw [hd] at h
      exact absurd h (by simp)
    | some q =>
      rw [hd] at h
      obtain ⟨_, rfl, _⟩ := some_triple_inj h
      have := delete_char_state buf state q.1 q.2 hd
      rw [this]
      simp [hm]
  · subst hc
    rw [hk_ctrl_d buf state hm] at h
    obtain ⟨_, rfl, _⟩ := some_triple_inj h
    split <;> simp [hm]
  · subst hc
    rw [hk_ctrl_u buf state hm] at h
    obtain ⟨_, rfl, _⟩ := some_triple_inj h
    split <;> simp [hm]
  · subst hc
    rw [hk_ctrl_q buf state hm] at h
    obtain ⟨_, rfl, _⟩ := some_triple_inj h
    simp [hm]
  · rw [hk_unbound buf state c hm hc] at h
    obtain ⟨_, rfl, _⟩ := some_triple_inj h
    simp [hm]
    exact hc.2.2.2.2.1

/-- What an Insert-mode step does to the mode and to the pending buffer. -/
theorem insert_step_facts (buf : Buffer) (state : State) (c : Nat) (b : Buffer) (s : State)
    (r : Nat) (hm : state.mode = Mode.Insert)
    (h : handle_keypress buf state c = some (b, s, r)) :
    (s.mode = Mode.Normal ↔ c = CTRL 'o') ∧ (s.mode = Mode.Insert ∨ s.mode = Mode.Normal)
      ∧ s.rows = state.rows
      ∧ (pending_ok state → pending_ok s) := by
  by_cases hn : state.insert_n < InsertBufMax
  · by_cases h29 : state.insert_n + 1 = InsertBufMax - 1
    · by_cases hc : c = CTRL 'o'
      · subst hc
        rw [hk_insert_flush_commit buf state hm h29] at h
        cases h1 : insert_line buf { state with
            insert_buf := state.insert_buf.set state.insert_n (CTRL 'o')
            insert_n := state.insert_n + 1 } with
        | none =>
          rw [h1] at h
          exact absurd h (by simp)
        | some q =>
          rw [h1] at h
          simp only [Option.some_bind] at h
          cases h2 : insert_line q.1 q.2 with
          | none =>
            rw [h2] at h
            exact absurd h (by simp)
          | some q2 =>
            rw [h2] at h
            obtain ⟨_, rfl, _⟩ := some_triple_inj h
            have e2 := insert_line_state q.1 q.2 q2.1 q2.2 h2
            have e1 := insert_line_state _ _ q.1 q.2 h1
            rw [e2, e1]
            simp [InsertBufMax, pending_ok]
      · rw [hk_insert_flush buf state c hm h29 hc] at h
        cases h1 : insert_line buf { state with
            insert_buf := state.insert_buf.set state.insert_n c
            insert_n := state.insert_n + 1 } with
        | none =>
          rw [h1] at h
          exact absurd h (by simp)
        | some q =>
          rw [h1] at h
          obtain ⟨_, rfl, _⟩ := some_triple_inj h
          have e1 := insert_line_state _ _ q.1 q.2 h1
          rw [e1]
          simp [InsertBufMax, hm, hc, pending_ok]
    · by_cases hc : c = CTRL 'o'
      · subst hc
        rw [hk_insert_commit buf state hm hn h29] at h
        cases h1 : insert_line buf { state with
            insert_buf := state.insert_buf.set state.insert_n (CTRL 'o')
            insert_n := state.insert_n + 1 } with
        | none =>
          rw [h1] at h
          exact absurd h (by simp)
        | some q =>
          rw [h1] at h
          obtain ⟨_, rfl, _⟩ := some_triple_inj h
          have e1 := insert_line_state _ _ q.1 q.2 h1
          rw [e1]
          simp [InsertBufMax, pending_ok]
      · rw [hk_insert_buffered buf state c hm hn h29 hc] at h
        obtain ⟨_, rfl, _⟩ := some_triple_inj h
        refine ⟨by simp [hm, hc], by simp [hm], rfl, ?_⟩
        intro hl
        refine ⟨?_, by simpa using hl.2⟩
        have hl1 := hl.1
        show state.insert_n + 1 < InsertBufMax - 1
        unfold InsertBufMax at *
        omega
  · rw [hk_insert_oob buf state c hm hn] at h
    exact absurd h (by simp)

theorem handle_keypress_pending_ok (buf : Buffer) (state : State) (c : Nat)
    (b : Buffer) (s : State) (r : Nat)
    (hinv : pending_ok state) (h : handle_keypress buf state c = some (b, s, r)) :
    pending_ok s := by
  cases hm : state.mode with
  | Normal =>
    obtain ⟨h1, h2, _⟩ := normal_step_facts buf state c b s r hm h
    unfold pending_ok
    rw [h1, h2]
    exact hinv
  | Insert =>
    exact (insert_step_facts buf state c b s r hm h).2.2.2 hinv

/-- One navigation command keeps the row at most `rows` and raises the column by at
most one, and only for `l`. -/
theorem nav_step (buf : Buffer) (state : State) (c : Nat) (hm : state.mode = Mode.Normal)
    (hy : state.cursor.y ≤ state.rows)
    (hc : c = 104 ∨ c = 106 ∨ c = 107 ∨ c = 108 ∨ c = 4 ∨ c = 21) :
    ∃ s, handle_keypress buf state c = some (buf, s, 0) ∧ s.mode = Mode.Normal
      ∧ s.rows = state.rows ∧ s.cursor.y ≤ s.rows
      ∧ s.cursor.x ≤ state.cursor.x + (if c = 108 then 1 else 0) := by
  rcases hc with hc | hc | hc | hc | hc | hc
  · subst hc
    rw [hk_h buf state hm]
    by_cases hx : state.cursor.x ≠ 0
    · rw [if_pos hx]
      exact ⟨_, rfl, hm, rfl, hy, Nat.le_trans (size_sub_le _ _ (Nat.pos_of_ne_zero hx))
        (Nat.le_trans (Nat.sub_le _ _) (Nat.le_add_right _ _))⟩
    · rw [if_neg hx]
      exact ⟨_, rfl, hm, rfl, hy, Nat.le_add_right _ _⟩
  · subst hc
    rw [hk_j buf state hm]
    by_cases hne : state.cursor.y ≠ state.rows
    · rw [if_pos hne]
      exact ⟨_, rfl, hm, rfl, Nat.le_trans (size_add_le _ _)
        (Nat.succ_le_of_lt (Nat.lt_of_le_of_ne hy hne)), Nat.le_add_right _ _⟩
    · rw [if_neg hne]
      by_cases ho : state.offset ≠ state.cols
      · rw [if_pos ho]
        exact ⟨_, rfl, hm, rfl, hy, Nat.le_add_right _ _⟩
      · rw [if_neg ho]
        exact ⟨_, rfl, hm, rfl, hy, Nat.le_add_right _ _⟩
  · subst hc
    rw [hk_k buf state hm]
    by_cases hne : state.cursor.y ≠ 0
    · rw [if_pos hne]
      exact ⟨_, rfl, hm, rfl, Nat.le_trans (size_sub_le _ _ (Nat.pos_of_ne_zero hne))
        (Nat.le_trans (Nat.sub_le _ _) hy), Nat.le_add_right _ _⟩
    · rw [if_neg hne]
      by_cases ho : state.offset ≠ 0
      · rw [if_pos ho]
        exact ⟨_, rfl, hm, rfl, hy, Nat.le_add_right _ _⟩
      · rw [if_neg ho]
        exact ⟨_, rfl, hm, rfl, hy, Nat.le_add_right _ _⟩
  · subst hc
    rw [hk_l buf state hm]
    by_cases hne : state.cursor.y ≠ state.rows
    · rw [if_pos hne]
      exact ⟨_, rfl, hm, rfl, hy, size_add_le _ _⟩
    · rw [if_neg hne]
      exact ⟨_, rfl, hm, rfl, hy, Nat.le_add_right _ _⟩
  · subst hc
    rw [hk_ctrl_d buf state hm]
    by_cases hgt : size_add state.cursor.y (state.rows / 2) > state.rows
    · rw [if_pos hgt]
      exact ⟨_, rfl, hm, rfl, Nat.le_refl _, Nat.le_add_right _ _⟩
    · rw [if_neg hgt]
      exact ⟨_, rfl, hm, rfl, Nat.le_of_not_lt hgt, Nat.le_add_right _ _⟩
  · subst hc
    rw [hk_ctrl_u buf state hm]
    by_cases hlt : state.cursor.y < state.rows / 2
    · rw [if_pos hlt]
      exact ⟨_, rfl, hm, rfl, Nat.zero_le _, Nat.le_add_right _ _⟩
    · rw [if_neg hlt]
      exact ⟨_, rfl, hm, rfl, Nat.le_trans (size_sub_le _ _ (Nat.le_of_not_lt hlt))
        (Nat.le_trans (Nat.sub_le _ _) hy), Nat.le_add_right _ _⟩

theorem run_nav (keys : List Nat) : ∀ (buf : Buffer) (state : State),
    state.mode = Mode.Normal → state.cursor.y ≤ state.rows →
    (∀ c ∈ keys, c = 104 ∨ c = 106 ∨ c = 107 ∨ c = 108 ∨ c = 4 ∨ c = 21) →
    ∃ s, run_keys buf state keys = some (buf, s) ∧ s.mode = Mode.Normal
      ∧ s.rows = state.rows ∧ s.cursor.y ≤ s.rows
      ∧ s.cursor.x ≤ state.cursor.x + keys.count 108 := by
  induction keys with
  | nil =>
    intro buf state hm hy _
    exact ⟨state, rfl, hm, rfl, hy, Nat.le_add_right _ _⟩
  | cons c cs ih =>
    intro buf state hm hy hk
    obtain ⟨s1, e1, hm1, hr1, hy1, hx1⟩ :=
      nav_step buf state c hm hy (hk c (List.mem_cons_self c cs))
    obtain ⟨s2, e2, hm2, hr2, hy2, hx2⟩ :=
      ih buf s1 hm1 hy1 (fun d hd => hk d (List.mem_cons_of_mem c hd))
    refine ⟨s2, ?_, hm2, by rw [hr2, hr1], hy2, ?_⟩
    · rw [run_keys_cons_continue buf state c cs buf s1 e1]
      exact e2
    · rw [List.count_cons]
      by_cases hc : c = 108
      · rw [if_pos hc] at hx1
        have hb : (c == 108) = true := by simpa using hc
        rw [if_pos hb]
        omega
      · rw [if_neg hc] at hx1
        have hb : ¬ (c == 108) = true := by simpa using hc
        rw [if_neg hb]
        omega

/-- Moving right `k` times from a row other than `rows`. -/
theorem run_right (k : Nat) : ∀ (buf : Buffer) (state : State),
    state.mode = Mode.Normal → state.cursor.y ≠ state.rows →
    state.cursor.x + k < SIZE_MOD →
    run_keys buf state (List.replicate k 108)
      = some (buf, { state with cursor := { state.cursor with x := state.cursor.x + k } }) := by
  induction k with
  | zero =>
    intro buf state _ _ _
    rfl
  | succ k ih =>
    intro buf state hm hy hk
    have e : handle_keypress buf state 108 = some (buf,
        { state with cursor := { state.cursor with x := state.cursor.x + 1 } }, 0) := by
      rw [hk_l buf state hm, if_pos hy, size_add_of_lt _ _ (by omega)]
    have h2 := ih buf { state with cursor := { state.cursor with x := state.cursor.x + 1 } }
      hm hy (by show state.cursor.x + 1 + k < SIZE_MOD; omega)
    rw [List.replicate_succ, run_keys_cons_continue buf state 108 _ buf _ e, h2]
    have e2 : state.cursor.x + 1 + k = state.cursor.x + (k + 1) := by omega
    simp only [e2]

/-- A step is defined whenever the cursor row is a row of the buffer, the pending count
is inside the pending array and, for `x` in Normal mode, the line at the cursor row has
a stored length of at least 1. -/
theorem handle_keypress_defined (buf : Buffer) (state : State) (c : Nat) (line : SubBuffer)
    (hrow : buf.data[state.cursor.y]? = some line)
    (hpos : state.mode = Mode.Normal → c = 120 → 0 < line.size)
    (hn : state.insert_n < InsertBufMax) :
    ∃ b s r, handle_keypress buf state c = some (b, s, r) ∧ b.data.length = buf.data.length := by
  have hy : state.cursor.y < buf.data.length := row_lt buf _ line hrow
  cases hm : state.mode with
  | Normal =>
    rcases key_cases c with hc | hc | hc | hc | hc | hc | hc | hc | hc | hc
    · exact ⟨_, _, _, hc ▸ hk_h buf state hm, rfl⟩
    · exact ⟨_, _, _, hc ▸ hk_j buf state hm, rfl⟩
    · exact ⟨_, _, _, hc ▸ hk_k buf state hm, rfl⟩
    · exact ⟨_, _, _, hc ▸ hk_l buf state hm, rfl⟩
    · exact ⟨_, _, _, hc ▸ hk_i buf state hm, rfl⟩
    · obtain ⟨b, e, hlen⟩ := delete_char_isSome buf state line hrow (hpos hm hc)
      refine ⟨b, state, 0, ?_, hlen⟩
      rw [hc, hk_x buf state hm, e]
      rfl
    · exact ⟨_, _, _, hc ▸ hk_ctrl_d buf state hm, rfl⟩
    · exact ⟨_, _, _, hc ▸ hk_ctrl_u buf state hm, rfl⟩
    · exact ⟨_, _, _, hc ▸ hk_ctrl_q buf state hm, rfl⟩
    · exact ⟨_, _, _, hk_unbound buf state c hm hc, rfl⟩
  | Insert =>
    by_cases h29 : state.insert_n + 1 = InsertBufMax - 1
    · obtain ⟨b1, e1, hlen1⟩ := insert_line_isSome buf
        { state with insert_buf := state.insert_buf.set state.insert_n c
                     insert_n := state.insert_n + 1 } hy
      by_cases hc : c = CTRL 'o'
      · obtain ⟨b2, e2, hlen2⟩ := insert_line_isSome b1
          { state with insert_buf := List.replicate InsertBufMax 0, insert_n := 0 }
          (by rw [hlen1]; exact hy)
        subst hc
        rw [hk_insert_flush_commit buf state hm h29, e1, Option.some_bind]
        simp only
        rw [e2]
        exact ⟨_, _, _, rfl, by rw [hlen2, hlen1]⟩
      · rw [hk_insert_flush buf state c hm h29 hc, e1]
        exact ⟨_, _, _, rfl, hlen1⟩
    · by_cases hc : c = CTRL 'o'
      · obtain ⟨b1, e1, hlen1⟩ := insert_line_isSome buf
          { state with insert_buf := state.insert_buf.set state.insert_n c
                       insert_n := state.insert_n + 1 } hy
        subst hc
        rw [hk_insert_commit buf state hm hn h29, e1]
        exact ⟨_, _, _, rfl, hlen1⟩
      · exact ⟨_, _, _, hk_insert_buffered buf state c hm hn h29 hc, rfl⟩

/-! ## Line Buffer: `insert_line` and `delete_char` -/

/-- C2: for a valid row `y` and a column `x <` the stored length of line `y`,
`delete_char` leaves line `y` with content `old[0..x) ++ old[x+1..old_len)`, stored
length `old_len - 1` and a NUL at index `old_len - 1`; the state is unchanged. -/
theorem delete_char_removes_byte (buf : Buffer) (state : State) (line : SubBuffer)
    (hy : buf.data[state.cursor.y]? = some line)
    (hx : state.cursor.x < line.size) (hs : line.size < SIZE_MOD) :
    ∃ buf1 line1, delete_char buf state = some (buf1, state)
      ∧ buf1.data[state.cursor.y]? = some line1
      ∧ line1.content = line.content.take state.cursor.x ++ line.content.drop (state.cursor.x + 1)
      ∧ line1.size = line.size - 1
      ∧ line1.data (line.size - 1) = 0 := by
  obtain ⟨buf1, line1, e, hy1, hc, hs1, hz, _, _⟩ := delete_char_removed buf state line hy hx hs
  exact ⟨buf1, line1, e, hy1, hc, hs1, hz⟩

/-- C2 witness: deleting at column 1 of `"hello\n"` gives `"hllo\n"`. -/
theorem delete_char_removes_byte_witness :
    ∃ buf1 line1, delete_char hello (cursor_at 1) = some (buf1, cursor_at 1)
      ∧ buf1.data[0]? = some line1
      ∧ line1.content = [104, 108, 108, 111, 10]
      ∧ line1.size = 5 ∧ line1.data 5 = 0 := by
  obtain ⟨buf1, line1, e, hy1, hc, hs1, hz⟩ :=
    delete_char_removes_byte hello (cursor_at 1) (SubBuffer.ofBytes hello_bytes) rfl
      (by decide) (by decide)
  exact ⟨buf1, line1, e, hy1, hc, hs1, hz⟩

/-- C3 (the code at the failing input): a file of one line of 60 bytes loads as one line
of stored length 60; over it 60 `l`, `i` and `A` from the initial state lead to the
cursor column 60 with `A` pending in Insert mode; the commit key then makes
`insert_line` run with two pending bytes at column 60. It asks `realloc` for 62 bytes,
and `memmove` moves 61 bytes, reading the indices `[60, 121)` and writing the indices
`[62, 123)`: 61 bytes outside the 62 requested. -/
theorem insert_line_shift_leaves_block :
    (run_keys long_line initial (List.replicate 60 'l'.toNat ++ ['i'.toNat, 65])).map
        (fun r => (r.2.cursor, r.2.insert_n, r.2.insert_buf.take 1, r.2.mode))
        = some ({ x := 60, y := 0 }, 1, [65], Mode.Insert)
    ∧ (buffer_from_file long_bytes).data.map (fun l => (l.content, l.size)) = [(long_bytes, 60)]
    ∧ long_line.data.map (fun l => (l.content, l.size)) = [(long_bytes, 60)]
    ∧ insert_line_capacity (SubBuffer.ofBytes long_bytes) at_line_end = 62
    ∧ insert_line_moved (SubBuffer.ofBytes long_bytes) at_line_end = 61
    ∧ insert_line_accesses (SubBuffer.ofBytes long_bytes) at_line_end
        = [(60, 121), (62, 123), (60, 62)]
    ∧ ¬ (∀ r ∈ insert_line_accesses (SubBuffer.ofBytes long_bytes) at_line_end,
          r.2 ≤ insert_line_capacity (SubBuffer.ofBytes long_bytes) at_line_end) := by
  decide

/-! ## Editor State: navigation -/

/-- C4 (as stated, refuted): over the one-line buffer `"hello\n"` in a 24 by 80 window,
one `j` puts the cursor on row 1, beyond the last row 0 of the buffer, and seven `l` put
it at column 7, beyond the stored length 6 of its line. -/
theorem nav_cursor_leaves_buffer :
    (∃ s, run_keys hello initial ['j'.toNat] = some (hello, s)
        ∧ ¬ s.cursor.y ≤ hello.rows - 1)
    ∧ (∃ s line, run_keys hello initial (List.replicate 7 'l'.toNat) = some (hello, s)
        ∧ hello.data[s.cursor.y]? = some line ∧ ¬ s.cursor.x ≤ line.size) := by
  refine ⟨⟨_, rfl, by decide⟩, ⟨_, _, rfl, rfl, by decide⟩⟩

/-- C4 (amended): from the initial state over any buffer and any viewport size, every
sequence of navigation commands (`h`, `j`, `k`, `l`, Ctrl-D, Ctrl-U) is processed
without touching the buffer and leaves the cursor row at most the viewport height
`rows` and the cursor column at most the number of `l` commands; when the row is a row
of the buffer, the column that `update_screen` moves the terminal cursor to is the
minimum of the cursor column and the stored length of that line, so it is at most that
stored length. -/
theorem nav_cursor_within_viewport (buf : Buffer) (ws_row ws_col : Nat) (file_name : List Nat)
    (keys : List Nat)
    (hk : ∀ c ∈ keys, c = 'h'.toNat ∨ c = 'j'.toNat ∨ c = 'k'.toNat ∨ c = 'l'.toNat
        ∨ c = CTRL 'd' ∨ c = CTRL 'u') :
    ∃ s, run_keys buf (new_state ws_row ws_col file_name) keys = some (buf, s)
      ∧ s.rows = ws_row
      ∧ s.cursor.y ≤ ws_row
      ∧ s.cursor.x ≤ keys.count 'l'.toNat
      ∧ ∀ line, buf.data[s.cursor.y]? = some line →
          screen_cursor_x buf s = some (min s.cursor.x line.size)
          ∧ min s.cursor.x line.size ≤ line.size := by
  obtain ⟨s, e, _, hr, hy, hx⟩ := run_nav keys buf (new_state ws_row ws_col file_name) rfl
    (Nat.zero_le _)
    (by
      intro c hc
      have h := hk c hc
      rw [key_h, key_j, key_k, key_l, CTRL_d, CTRL_u] at h
      exact h)
  have hr1 : s.rows = ws_row := hr
  refine ⟨s, e, hr1, by rw [← hr1]; exact hy, ?_, ?_⟩
  · rw [key_l]
    have h0 : (new_state ws_row ws_col file_name).cursor.x = 0 := rfl
    rw [h0] at hx
    omega
  · intro line hl
    refine ⟨?_, Nat.min_le_right _ _⟩
    unfold screen_cursor_x
    rw [hl]
    by_cases hlt : s.cursor.x < line.size
    · simp only [if_pos hlt]
      rw [Nat.min_eq_left (Nat.le_of_lt hlt)]
    · simp only [if_neg hlt]
      rw [Nat.min_eq_right (Nat.le_of_not_lt hlt)]

/-- C4 witness: `j`, `l`, `l`, Ctrl-D, `k`, `h` over `"hello\n"` in a 24 by 80 window. -/
theorem nav_cursor_within_viewport_witness :
    ∃ s, run_keys hello initial [106, 108, 108, 4, 107, 104] = some (hello, s)
      ∧ s.cursor.y ≤ 24 ∧ s.cursor.x ≤ 2 := by
  obtain ⟨s, e, _, hy, hx, _⟩ :=
    nav_cursor_within_viewport hello 24 80 [] [106, 108, 108, 4, 107, 104] (by decide)
  exact ⟨s, e, hy, hx⟩

/-- C5 (as stated, refuted): over `"hello\n"` in a 24 by 80 window the sixth `l` moves
the cursor to column 6; it does not stay at column 5. -/
theorem sixth_right_move_not_clamped :
    (run_keys hello initial (List.replicate 6 'l'.toNat)).map (fun r => r.2.cursor)
        = some { x := 6, y := 0 }
    ∧ (run_keys hello initial (List.replicate 6 'l'.toNat)).map (fun r => r.2.cursor)
        ≠ some { x := 5, y := 0 } := by
  decide

/-- C5 (amended): over the one-line buffer `"hello\n"`, from the initial state with a
viewport height other than 0, `k` commands `l` put the cursor at column `k`, row 0, for
every `k` (5 after five, 6 after six: `l` does not clamp the column); the column that
`update_screen` moves the terminal cursor to is `min k 6`, 6 being the stored length of
`"hello\n"`. -/
theorem right_moves_on_hello (ws_row ws_col : Nat) (file_name : List Nat) (k : Nat)
    (hrows : ws_row ≠ 0) (hk : k < SIZE_MOD) :
    ∃ s, run_keys hello (new_state ws_row ws_col file_name) (List.replicate k 'l'.toNat)
        = some (hello, s)
      ∧ s.cursor = { x := k, y := 0 }
      ∧ screen_cursor_x hello s = some (min k 6) := by
  have h := run_right k hello (new_state ws_row ws_col file_name) rfl
    (fun h0 => hrows (Eq.symm h0)) (by show 0 + k < SIZE_MOD; omega)
  rw [key_l, h]
  refine ⟨_, rfl, ?_, ?_⟩
  · show ({ x := 0 + k, y := 0 } : Cursor) = { x := k, y := 0 }
    rw [Nat.zero_add]
  · show (some (if 0 + k < 6 then 0 + k else 6) : Option Nat) = some (min k 6)
    rw [Nat.zero_add]
    by_cases hlt : k < 6
    · rw [if_pos hlt, Nat.min_eq_left (Nat.le_of_lt hlt)]
    · rw [if_neg hlt, Nat.min_eq_right (Nat.le_of_not_lt hlt)]

/-- C5 witness: five and six `l` in a 24 by 80 window. -/
theorem right_moves_on_hello_witness :
    (∃ s, run_keys hello initial (List.replicate 5 108) = some (hello, s)
      ∧ s.cursor = { x := 5, y := 0 } ∧ screen_cursor_x hello s = some 5)
    ∧ (∃ s, run_keys hello initial (List.replicate 6 108) = some (hello, s)
      ∧ s.cursor = { x := 6, y := 0 } ∧ screen_cursor_x hello s = some 6) :=
  ⟨right_moves_on_hello 24 80 [] 5 (by decide) (by decide),
   right_moves_on_hello 24 80 [] 6 (by decide) (by decide)⟩

/-! ## Input Dispatcher: Insert mode -/

/-- C9: in every state that the initial state reaches by handling any sequence of input
bytes, the pending count `insert_n` is at most 28, so below `InsertBufMax - 1 = 29` and
below the capacity 30 of `insert_buf`, and the pending array still has its 30 bytes:
the index written by the next Insert-mode step is inside the array. -/
theorem pending_never_full (buf : Buffer) (ws_row ws_col : Nat) (file_name : List Nat)
    (keys : List Nat) (b : Buffer) (s : State)
    (h : run_keys buf (new_state ws_row ws_col file_name) keys = some (b, s)) :
    s.insert_n ≤ 28 ∧ s.insert_n < InsertBufMax - 1 ∧ s.insert_n < InsertBufMax
      ∧ s.insert_buf.length = InsertBufMax := by
  have h0 : pending_ok (new_state ws_row ws_col file_name) :=
    ⟨(by decide : 0 < InsertBufMax - 1), List.length_replicate _ _⟩
  obtain ⟨h1, h2⟩ := run_keys_preserves pending_ok
    (fun buf state c b s r hP hk => handle_keypress_pending_ok buf state c b s r hP hk)
    keys buf _ b s h0 h
  refine ⟨?_, h1, ?_, h2⟩
  · unfold InsertBufMax at h1
    omega
  · unfold InsertBufMax at *
    omega

/-- C9 witness: `i` and 30 bytes `A` over `"hello\n"`: one flush, one byte pending. -/
theorem pending_never_full_witness :
    ∃ b s, run_keys hello initial (105 :: List.replicate 30 65) = some (b, s)
      ∧ s.insert_n ≤ 28 := by
  have hs : (run_keys hello initial (105 :: List.replicate 30 65)).isSome = true := by decide
  cases h : run_keys hello initial (105 :: List.replicate 30 65) with
  | none =>
    rw [h] at hs
    exact absurd hs (by decide)
  | some r =>
    exact ⟨r.1, r.2, rfl, (pending_never_full hello 24 80 [] _ r.1 r.2 h).1⟩

/-- C10: one `handle_keypress` step changes the mode in exactly two cases: from Normal
to Insert exactly when the byte is `i`, and from Insert to Normal exactly when the byte
is the commit key Ctrl-O; every other pair of mode and byte leaves the mode unchanged.
The initial mode is Normal. -/
theorem mode_changes_only_on_commands (buf : Buffer) (state : State) (c : Nat)
    (b : Buffer) (s : State) (r : Nat) (ws_row ws_col : Nat) (file_name : List Nat)
    (h : handle_keypress buf state c = some (b, s, r)) :
    (state.mode = Mode.Normal → (s.mode = Mode.Insert ↔ c = 'i'.toNat))
    ∧ (state.mode = Mode.Insert → (s.mode = Mode.Normal ↔ c = CTRL 'o'))
    ∧ (s.mode ≠ state.mode ↔
        (state.mode = Mode.Normal ∧ c = 'i'.toNat) ∨ (state.mode = Mode.Insert ∧ c = CTRL 'o'))
    ∧ (new_state ws_row ws_col file_name).mode = Mode.Normal := by
  rw [key_i]
  cases hm : state.mode with
  | Normal =>
    obtain ⟨_, _, _, hi, hor⟩ := normal_step_facts buf state c b s r hm h
    refine ⟨fun _ => hi, fun h1 => absurd h1 (by decide), ?_, rfl⟩
    constructor
    · intro hne
      rcases hor with h1 | h1
      · exact Or.inl ⟨rfl, hi.mp h1⟩
      · exact absurd h1 hne
    · intro h1
      rcases h1 with ⟨_, hc⟩ | ⟨h2, _⟩
      · rw [hi.mpr hc]
        decide
      · exact absurd h2 (by decide)
  | Insert =>
    obtain ⟨hi, hor, _, _⟩ := insert_step_facts buf state c b s r hm h
    refine ⟨fun h1 => absurd h1 (by decide), fun _ => hi, ?_, rfl⟩
    constructor
    · intro hne
      rcases hor with h1 | h1
      · exact absurd h1 hne
      · exact Or.inr ⟨rfl, hi.mp h1⟩
    · intro h1
      rcases h1 with ⟨h2, _⟩ | ⟨_, hc⟩
      · exact absurd h2 (by decide)
      · rw [hi.mpr hc]
        decide

/-- C10 witness: `i` in the initial state, and Ctrl-O in the state that follows. -/
theorem mode_changes_only_on_commands_witness :
    (∃ b s r, handle_keypress hello initial 105 = some (b, s, r) ∧ s.mode = Mode.Insert)
    ∧ initial.mode = Mode.Normal := by
  have h := mode_changes_only_on_commands hello initial 105 hello
    { initial with mode := Mode.Insert } 0 24 80 [] (hk_i hello initial rfl)
  exact ⟨⟨_, _, _, hk_i hello initial rfl, (h.1 rfl).mpr (by decide)⟩, h.2.2.2⟩

/-! ## Auxiliary lemmas: steps, frames and the renderer loop -/

theorem normal_step_return (buf : Buffer) (state : State) (c : Nat) (b : Buffer) (s : State)
    (r : Nat) (hm : state.mode = Mode.Normal)
    (h : handle_keypress buf state c = some (b, s, r)) :
    (r = 1 ↔ c = 17) ∧ (r = 0 ∨ r = 1) := by
  rcases key_cases c with hc | hc | hc | hc | hc | hc | hc | hc | hc | hc
  · subst hc
    rw [hk_h buf state hm] at h
    obtain ⟨_, _, rfl⟩ := some_triple_inj h
    exact ⟨by decide, Or.inl rfl⟩
  · subst hc
    rw [hk_j buf state hm] at h
    obtain ⟨_, _, rfl⟩ := some_triple_inj h
    exact ⟨by decide, Or.inl rfl⟩
  · subst hc
    rw [hk_k buf state hm] at h
    obtain ⟨_, _, rfl⟩ := some_triple_inj h
    exact ⟨by decide, Or.inl rfl⟩
  · subst hc
    rw [hk_l buf state hm] at h
    obtain ⟨_, _, rfl⟩ := some_triple_inj h
    exact ⟨by decide, Or.inl rfl⟩
  · subst hc
    rw [hk_i buf state hm] at h
    obtain ⟨_, _, rfl⟩ := some_triple_inj h
    exact ⟨by decide, Or.inl rfl⟩
  · subst hc
    rw [hk_x buf state hm] at h
    cases hd : delete_char buf state with
    | none =>
      rw [hd] at h
      exact absurd h (by simp)
    | some q =>
      rw [hd] at h
      obtain ⟨_, _, rfl⟩ := some_triple_inj h
      exact ⟨by decide, Or.inl rfl⟩
  · subst hc
    rw [hk_ctrl_d buf state hm] at h
    obtain ⟨_, _, rfl⟩ := some_triple_inj h
    exact ⟨by decide, Or.inl rfl⟩
  · subst hc
    rw [hk_ctrl_u buf state hm] at h
    obtain ⟨_, _, rfl⟩ := some_triple_inj h
    exact ⟨by decide, Or.inl rfl⟩
  · subst hc
    rw [hk_ctrl_q buf state hm] at h
    obtain ⟨_, _, rfl⟩ := some_triple_inj h
    exact ⟨by decide, Or.inr rfl⟩
  · rw [hk_unbound buf state c hm hc] at h
    obtain ⟨_, _, rfl⟩ := some_triple_inj h
    refine ⟨⟨fun h0 => absurd h0 (by decide), fun h1 => absurd h1 hc.2.2.2.2.2.2.2.2⟩, Or.inl rfl⟩

/-- An Insert-mode step returns 0, and when it ends in Normal mode nothing is pending. -/
theorem insert_step_return (buf : Buffer) (state : State) (c : Nat) (b : Buffer) (s : State)
    (r : Nat) (hm : state.mode = Mode.Insert)
    (h : handle_keypress buf state c = some (b, s, r)) :
    r = 0 ∧ (s.mode = Mode.Normal →
      s.insert_n = 0 ∧ s.insert_buf = List.replicate InsertBufMax 0) := by
  by_cases hn : state.insert_n < InsertBufMax
  · by_cases h29 : state.insert_n + 1 = InsertBufMax - 1
    · by_cases hc : c = CTRL 'o'
      · subst hc
        rw [hk_insert_flush_commit buf state hm h29] at h
        cases h1 : insert_line buf { state with
            insert_buf := state.insert_buf.set state.insert_n (CTRL 'o')
            insert_n := state.insert_n + 1 } with
        | none =>
          rw [h1] at h
          exact absurd h (by simp)
        | some q =>
          rw [h1] at h
          simp only [Option.some_bind] at h
          cases h2 : insert_line q.1 q.2 with
          | none =>
            rw [h2] at h
            exact absurd h (by simp)
          | some q2 =>
            rw [h2] at h
            obtain ⟨_, rfl, rfl⟩ := some_triple_inj h
            have e2 := insert_line_state q.1 q.2 q2.1 q2.2 h2
            rw [e2]
            exact ⟨rfl, fun _ => ⟨rfl, rfl⟩⟩
      · rw [hk_insert_flush buf state c hm h29 hc] at h
        cases h1 : insert_line buf { state with
            insert_buf := state.insert_buf.set state.insert_n c
            insert_n := state.insert_n + 1 } with
        | none =>
          rw [h1] at h
          exact absurd h (by simp)
        | some q =>
          rw [h1] at h
          obtain ⟨_, rfl, rfl⟩ := some_triple_inj h
          have e1 := insert_line_state _ _ q.1 q.2 h1
          rw [e1]
          exact ⟨rfl, fun _ => ⟨rfl, rfl⟩⟩
    · by_cases hc : c = CTRL 'o'
      · subst hc
        rw [hk_insert_commit buf state hm hn h29] at h
        cases h1 : insert_line buf { state with
            insert_buf := state.insert_buf.set state.insert_n (CTRL 'o')
            insert_n := state.insert_n + 1 } with
        | none =>
          rw [h1] at h
          exact absurd h (by simp)
        | some q =>
          rw [h1] at h
          obtain ⟨_, rfl, rfl⟩ := some_triple_inj h
          have e1 := insert_line_state _ _ q.1 q.2 h1
          rw [e1]
          exact ⟨rfl, fun _ => ⟨rfl, rfl⟩⟩
      · rw [hk_insert_buffered buf state c hm hn h29 hc] at h
        obtain ⟨_, rfl, rfl⟩ := some_triple_inj h
        refine ⟨rfl, fun h0 => ?_⟩
        have h1 : state.mode = Mode.Normal := h0
        rw [hm] at h1
        exact absurd h1 (by decide)
  · rw [hk_insert_oob buf state c hm hn] at h
    exact absurd h (by simp)

theorem handle_keypress_normal_idle (buf : Buffer) (state : State) (c : Nat)
    (b : Buffer) (s : State) (r : Nat)
    (hinv : normal_idle state) (h : handle_keypress buf state c = some (b, s, r)) :
    normal_idle s := by
  cases hm : state.mode with
  | Normal =>
    obtain ⟨h1, h2, _⟩ := normal_step_facts buf state c b s r hm h
    intro _
    rw [h1, h2]
    exact hinv hm
  | Insert =>
    exact (insert_step_return buf state c b s r hm h).2

/-- The buffer that `delete_char` leaves differs from the old one at the cursor row
only, where the stored length is the `size_t` value `size - 1`. -/
theorem delete_char_framed (buf : Buffer) (state : State) (line : SubBuffer)
    (hy : buf.data[state.cursor.y]? = some line) (hpos : 0 < line.size) :
    ∃ b line1, delete_char buf state = some (b, state)
      ∧ b.data[state.cursor.y]? = some line1
      ∧ line1.size = size_sub line.size 1
      ∧ b.data.length = buf.data.length
      ∧ ∀ j, j ≠ state.cursor.y → b.data[j]? = buf.data[j]? := by
  unfold delete_char
  rw [hy]
  simp only [if_pos (delete_char_last_lt line hpos)]
  exact ⟨_, _, rfl, List.getElem?_set_self (row_lt buf _ line hy), rfl,
    List.length_set _ _ _, fun j hj => List.getElem?_set_ne (Ne.symm hj)⟩

theorem draw_lines_fault (k i : Nat) (buf : Buffer) (out : List Nat) (hk : 0 < k)
    (h : buf.data[i]? = none) : draw_lines k i buf out = { bytes := out, ok := false } := by
  cases k with
  | zero => exact absurd hk (by decide)
  | succ k =>
    unfold draw_lines
    rw [h]

/-- The sentinel that the `memmove` of `insert_line` moves lands on the index
`size + insert_n`, which is the number of bytes asked of `realloc`: the destination
range ends one byte or more past the request. -/
theorem insert_line_sentinel_past_capacity (line : SubBuffer) (state : State)
    (hfit : line.size + state.insert_n + 1 < SIZE_MOD) :
    insert_line_capacity line state = line.size + state.insert_n
    ∧ insert_line_moved line state = line.size + 1
    ∧ insert_line_capacity line state
        < state.cursor.x + state.insert_n + insert_line_moved line state := by
  have h1 : size_add line.size state.insert_n = line.size + state.insert_n :=
    size_add_of_lt _ _ (by omega)
  have h2 : size_sub (line.size + state.insert_n) state.insert_n = line.size := by
    rw [size_sub_of_le _ _ (by omega) (by omega)]
    omega
  have h3 : size_add line.size 1 = line.size + 1 := size_add_of_lt _ _ (by omega)
  have hc : insert_line_capacity line state = line.size + state.insert_n := h1
  have hm : insert_line_moved line state = line.size + 1 := by
    unfold insert_line_moved
    rw [h1, h2, h3]
  refine ⟨hc, hm, ?_⟩
  rw [hc, hm]
  omega

/-! ## Editor State: mode entry, quit, half pages and deletion -/

/-- C11: in every state that the initial state reaches by handling input bytes and that
is in Normal mode, the byte `i` yields a state in Insert mode whose pending buffer is
empty (`insert_n = 0`, all 30 bytes of `insert_buf` zero), with the buffer, the cursor
and the scroll offset unchanged. -/
theorem enter_insertion_pending_empty (buf : Buffer) (ws_row ws_col : Nat)
    (file_name : List Nat) (keys : List Nat) (b : Buffer) (s : State)
    (h : run_keys buf (new_state ws_row ws_col file_name) keys = some (b, s))
    (hm : s.mode = Mode.Normal) :
    ∃ s1, handle_keypress b s 'i'.toNat = some (b, s1, 0)
      ∧ s1.mode = Mode.Insert
      ∧ s1.insert_n = 0
      ∧ s1.insert_buf = List.replicate InsertBufMax 0
      ∧ s1.cursor = s.cursor
      ∧ s1.offset = s.offset := by
  have h0 : normal_idle (new_state ws_row ws_col file_name) := fun _ => ⟨rfl, rfl⟩
  have hidle := run_keys_preserves normal_idle
    (fun buf state c b s r hP hk => handle_keypress_normal_idle buf state c b s r hP hk)
    keys buf _ b s h0 h
  obtain ⟨hn, hb⟩ := hidle hm
  rw [key_i]
  exact ⟨{ s with mode := Mode.Insert }, hk_i b s hm, rfl, hn, hb, rfl, rfl⟩

/-- C11 witness: after `i`, `X`, Ctrl-O over `"hello\n"` the state is in Normal mode and
`i` enters Insert mode with nothing pending. -/
theorem enter_insertion_pending_empty_witness :
    ∃ b s s1, run_keys hello initial [105, 88, 15] = some (b, s)
      ∧ handle_keypress b s 105 = some (b, s1, 0)
      ∧ s1.mode = Mode.Insert ∧ s1.insert_n = 0
      ∧ s1.insert_buf = List.replicate InsertBufMax 0 := by
  have hs : (run_keys hello initial [105, 88, 15]).map (fun q => q.2.mode)
      = some Mode.Normal := by decide
  cases h : run_keys hello initial [105, 88, 15] with
  | none =>
    rw [h] at hs
    exact absurd hs (by decide)
  | some q =>
    rw [h] at hs
    have hm : q.2.mode = Mode.Normal := by
      simp only [Option.map_some', Option.some.injEq] at hs
      exact hs
    obtain ⟨s1, e, h1, h2, h3, _, _⟩ :=
      enter_insertion_pending_empty hello 24 80 [] [105, 88, 15] q.1 q.2 h hm
    exact ⟨q.1, q.2, s1, rfl, e, h1, h2, h3⟩

/-- C12 (as stated, refuted): in Insert mode the byte Ctrl-Q makes `handle_keypress`
return 0, not 1; the byte becomes a pending byte. -/
theorem quit_key_buffered_in_insert_mode :
    (handle_keypress hello inserting (CTRL 'q')).map (fun q => q.2.2) = some 0
    ∧ (handle_keypress hello inserting (CTRL 'q')).map (fun q => q.2.2) ≠ some 1
    ∧ (handle_keypress hello inserting (CTRL 'q')).map
        (fun q => (q.2.1.insert_n, q.2.1.insert_buf.take 1)) = some (1, [CTRL 'q']) := by
  decide

/-- C12 (amended): `handle_keypress` returns 1 exactly when the mode is Normal and the
byte is the quit command Ctrl-Q; in Insert mode it returns 0 for every byte, Ctrl-Q
included, and in Normal mode it returns 0 for every other byte. -/
theorem quit_only_from_normal_mode (buf : Buffer) (state : State) (c : Nat)
    (b : Buffer) (s : State) (r : Nat)
    (h : handle_keypress buf state c = some (b, s, r)) :
    (r = 1 ↔ state.mode = Mode.Normal ∧ c = CTRL 'q')
    ∧ (r = 0 ∨ r = 1)
    ∧ (state.mode = Mode.Insert → r = 0) := by
  rw [CTRL_q]
  cases hm : state.mode with
  | Normal =>
    obtain ⟨h1, h2⟩ := normal_step_return buf state c b s r hm h
    exact ⟨⟨fun hr => ⟨rfl, h1.mp hr⟩, fun hc => h1.mpr hc.2⟩, h2,
      fun h0 => absurd h0 (by decide)⟩
  | Insert =>
    have h1 := (insert_step_return buf state c b s r hm h).1
    refine ⟨⟨fun hr => ?_, fun hc => absurd hc.1 (by decide)⟩, Or.inl h1, fun _ => h1⟩
    rw [h1] at hr
    exact absurd hr (by decide)

/-- C12 witness: Ctrl-Q in the initial state returns 1. -/
theorem quit_only_from_normal_mode_witness :
    ∃ b s r, handle_keypress hello initial 17 = some (b, s, r) ∧ r = 1 := by
  have h := quit_only_from_normal_mode hello initial 17 hello initial 1
    (hk_ctrl_q hello initial rfl)
  exact ⟨hello, initial, 1, hk_ctrl_q hello initial rfl, h.1.mpr ⟨rfl, by decide⟩⟩

/-- C13 (as stated, refuted): over the one-line buffer `"hello\n"` in a 24 by 80 window,
Ctrl-D in the initial state sets the row to 12, not to `min (0 + 24 / 2) (1 - 1) = 0`:
the row exceeds the last row of the buffer. -/
theorem half_page_down_leaves_buffer :
    (handle_keypress hello initial (CTRL 'd')).map (fun q => q.2.1.cursor.y) = some 12
    ∧ (handle_keypress hello initial (CTRL 'd')).map (fun q => q.2.1.cursor.y)
        ≠ some (min (initial.cursor.y + initial.rows / 2) (hello.rows - 1)) := by
  decide

/-- C13 (amended): in Normal mode with cursor row `y` and viewport height `R`, Ctrl-D
sets the row to `min (y + R / 2) R` (the clamp is the viewport height, not the last
row of the buffer) and Ctrl-U sets it to `y - R / 2`, which is 0 when `y < R / 2`;
both leave the column, the scroll offset, the rest of the state and the buffer
unchanged and return 0. -/
theorem half_page_moves (buf : Buffer) (state : State)
    (hm : state.mode = Mode.Normal)
    (hfit : state.cursor.y + state.rows / 2 < SIZE_MOD) :
    handle_keypress buf state (CTRL 'd') = some (buf,
      { state with cursor :=
          { state.cursor with y := min (state.cursor.y + state.rows / 2) state.rows } }, 0)
    ∧ handle_keypress buf state (CTRL 'u') = some (buf,
      { state with cursor :=
          { state.cursor with y := state.cursor.y - state.rows / 2 } }, 0) := by
  constructor
  · rw [CTRL_d, hk_ctrl_d buf state hm, size_add_of_lt _ _ hfit]
    by_cases hgt : state.cursor.y + state.rows / 2 > state.rows
    · rw [if_pos hgt, Nat.min_eq_right (Nat.le_of_lt hgt)]
    · rw [if_neg hgt, Nat.min_eq_left (Nat.le_of_not_lt hgt)]
  · rw [CTRL_u, hk_ctrl_u buf state hm]
    by_cases hlt : state.cursor.y < state.rows / 2
    · rw [if_pos hlt, Nat.sub_eq_zero_of_le (Nat.le_of_lt hlt)]
    · rw [if_neg hlt, size_sub_of_le _ _ (Nat.le_of_not_lt hlt) (by omega)]

/-- C13 witness: Ctrl-D and Ctrl-U in the initial state of a 24 by 80 window. -/
theorem half_page_moves_witness :
    (handle_keypress hello initial 4).map (fun q => q.2.1.cursor) = some { x := 0, y := 12 }
    ∧ (handle_keypress hello initial 21).map (fun q => q.2.1.cursor)
        = some { x := 0, y := 0 } := by
  have h := half_page_moves hello initial rfl (by decide)
  rw [CTRL_d, CTRL_u] at h
  rw [h.1, h.2]
  decide

/-- C14 (as stated, refuted): over `"hello\n"` from the initial state, six `l` and then
`x` leave the cursor at column 6 while the line has shrunk to the stored length 5: the
cursor is not clamped to the new length. -/
theorem delete_leaves_cursor_past_line :
    ∃ b s line, run_keys hello initial (List.replicate 6 'l'.toNat ++ ['x'.toNat]) = some (b, s)
      ∧ s.mode = Mode.Normal
      ∧ b.data[s.cursor.y]? = some line
      ∧ s.cursor.x = 6 ∧ line.size = 5
      ∧ ¬ s.cursor.x ≤ line.size :=
  ⟨_, _, _, rfl, rfl, rfl, rfl, rfl, by decide⟩

/-- C14 (amended): in every Normal-mode state whose cursor row is a row of the buffer
holding a line of stored length at least 1, `x` applies `delete_char` at the cursor and
leaves the whole state, the cursor included, unchanged; the cursor column is at most the
new stored length whenever it was below the old one, and the column that
`update_screen` moves the terminal cursor to is the minimum of the cursor column and
the new stored length. -/
theorem delete_at_cursor_keeps_cursor (buf : Buffer) (state : State) (line : SubBuffer)
    (hm : state.mode = Mode.Normal)
    (hy : buf.data[state.cursor.y]? = some line)
    (hpos : 0 < line.size) :
    ∃ buf1 line1, handle_keypress buf state 'x'.toNat = some (buf1, state, 0)
      ∧ delete_char buf state = some (buf1, state)
      ∧ buf1.data[state.cursor.y]? = some line1
      ∧ line1.size = size_sub line.size 1
      ∧ screen_cursor_x buf1 state = some (min state.cursor.x line1.size)
      ∧ (state.cursor.x < line.size → line.size < SIZE_MOD → state.cursor.x ≤ line1.size) := by
  obtain ⟨buf1, line1, e, hy1, hs, _, _⟩ := delete_char_framed buf state line hy hpos
  refine ⟨buf1, line1, ?_, e, hy1, hs, ?_, ?_⟩
  · rw [key_x, hk_x buf state hm, e]
    rfl
  · unfold screen_cursor_x
    rw [hy1]
    by_cases hlt : state.cursor.x < line1.size
    · simp only [if_pos hlt]
      rw [Nat.min_eq_left (Nat.le_of_lt hlt)]
    · simp only [if_neg hlt]
      rw [Nat.min_eq_right (Nat.le_of_not_lt hlt)]
  · intro hx hlt
    rw [hs, size_sub_of_le _ _ (by omega) hlt]
    omega

/-- C14 witness: `x` at column 1 of `"hello\n"`. -/
theorem delete_at_cursor_keeps_cursor_witness :
    ∃ buf1 line1, handle_keypress hello (cursor_at 1) 120 = some (buf1, cursor_at 1, 0)
      ∧ buf1.data[0]? = some line1
      ∧ line1.size = 5
      ∧ screen_cursor_x buf1 (cursor_at 1) = some 1 := by
  obtain ⟨buf1, line1, e, _, hy1, hs, hc, _⟩ :=
    delete_at_cursor_keeps_cursor hello (cursor_at 1) (SubBuffer.ofBytes hello_bytes) rfl rfl
      (by decide)
  have hs5 : line1.size = 5 := hs
  rw [hs5] at hc
  exact ⟨buf1, line1, e, hy1, hs5, hc⟩

/-! ## Renderer, loader and storage -/

set_option maxRecDepth 100000 in
/-- C16 (as stated, refuted): in Insert mode with the cursor at `(0, 0)` and the file
name `f`, the status text is ` Normal | f | 0:0 ` and NUL bytes. It is the text of
the same state in Normal mode, so it carries no label of the mode, and it does not
contain the 1-based position `1:1`. -/
theorem status_line_ignores_mode_and_is_zero_based :
    one_pending.mode = Mode.Insert
    ∧ status_text one_pending = str_bytes " Normal | f | 0:0 " ++ List.replicate 110 0
    ∧ status_text one_pending = status_text { one_pending with mode := Mode.Normal }
    ∧ ¬ (str_bytes "1:1" <:+: status_text one_pending) := by
  decide

/-- C16 (amended): for every state whose file name has no NUL byte and whose text fits
the 128 byte buffer, `draw_status_line` writes, after repositioning to the bottom row,
the text ` Normal | `, the file name, ` | `, the cursor row, `:`, the cursor column and
a blank, then NUL bytes up to 128 bytes: the label is ` Normal ` in either mode (the
text does not depend on the mode) and the cursor position is displayed 0-based, as
`cursor row:cursor column`. -/
theorem status_line_text (state : State)
    (hname : ∀ b ∈ state.file_name, b ≠ 0)
    (hfit : (str_bytes " Normal | " ++ state.file_name ++ str_bytes " | "
      ++ fmt_zu state.cursor.y ++ [58] ++ fmt_zu state.cursor.x ++ [32]).length ≤ 127) :
    draw_status_line state = move_cursor 0 (to_int state.rows) ++ status_text state
    ∧ status_text state
        = (str_bytes " Normal | " ++ state.file_name ++ str_bytes " | "
            ++ fmt_zu state.cursor.y ++ [58] ++ fmt_zu state.cursor.x ++ [32])
          ++ List.replicate (128 - (str_bytes " Normal | " ++ state.file_name
              ++ str_bytes " | " ++ fmt_zu state.cursor.y ++ [58]
              ++ fmt_zu state.cursor.x ++ [32]).length) 0
    ∧ (status_text state).length = 128
    ∧ ∀ m, status_text { state with mode := m } = status_text state := by
  have hw : state.file_name.takeWhile (fun b => b ≠ 0) = state.file_name := by
    rw [List.takeWhile_eq_self_iff]
    intro b hb
    simpa using hname b hb
  have htext : status_text state
      = (str_bytes " Normal | " ++ state.file_name ++ str_bytes " | "
          ++ fmt_zu state.cursor.y ++ [58] ++ fmt_zu state.cursor.x ++ [32])
        ++ List.replicate (128 - (str_bytes " Normal | " ++ state.file_name
            ++ str_bytes " | " ++ fmt_zu state.cursor.y ++ [58]
            ++ fmt_zu state.cursor.x ++ [32]).length) 0 := by
    unfold status_text snprintf_buf
    rw [hw, List.take_of_length_le hfit]
  refine ⟨rfl, htext, ?_, fun _ => rfl⟩
  rw [htext, List.length_append, List.length_replicate]
  omega

set_option maxRecDepth 100000 in
/-- C16 witness: the initial state with the file name `f`. -/
theorem status_line_text_witness :
    status_text (new_state 24 80 [102])
      = str_bytes " Normal | f | 0:0 " ++ List.replicate 110 0 := by
  have h := (status_line_text (new_state 24 80 [102]) (by decide) (by decide)).2.1
  rw [h]
  decide

/-- C17 (the code at the failing input): loading a file without bytes gives a buffer
with no line, however many iterations the loader is allowed, and for every window size the first `update_screen` on the initial state
stops on an index outside the buffer: the bound `max_lines - 1` of the content loop
wraps around to `2 ^ 64 - 1`, the loop indexes row 0 of a buffer without rows, and the
lookup of the line at the cursor row finds no line. -/
theorem empty_file_faults (ws_row ws_col : Nat) (file_name : List Nat) :
    (∀ fuel, read_lines fuel [] = [])
    ∧ (buffer_from_file []).rows = 0
    ∧ size_sub (min (buffer_from_file []).rows ws_row) 1 = SIZE_MOD - 1
    ∧ draw_buffer_contents (buffer_from_file []) (new_state ws_row ws_col file_name)
        = { bytes := move_cursor 0 0, ok := false }
    ∧ screen_cursor_x (buffer_from_file []) (new_state ws_row ws_col file_name) = none
    ∧ (update_screen (buffer_from_file []) (new_state ws_row ws_col file_name)).ok = false := by
  have hbuf : buffer_from_file [] = { data := [] } := rfl
  have hsub : size_sub 0 1 = SIZE_MOD - 1 := by decide
  have hmax : (if (0 : Nat) < ws_row then 0 else ws_row) = 0 := by
    by_cases h : 0 < ws_row
    · rw [if_pos h]
    · rw [if_neg h]
      omega
  have hdraw : draw_buffer_contents { data := [] } (new_state ws_row ws_col file_name)
      = { bytes := move_cursor 0 0, ok := false } := by
    unfold draw_buffer_contents
    show draw_lines (size_sub (if (0 : Nat) < ws_row then 0 else ws_row) 1 - 0) 0 _ _ = _
    rw [hmax, hsub]
    exact draw_lines_fault _ _ _ _ (by decide) rfl
  rw [hbuf]
  refine ⟨fun fuel => by cases fuel <;> rfl, rfl, ?_, hdraw, rfl, ?_⟩
  · show size_sub (min 0 ws_row) 1 = SIZE_MOD - 1
    rw [Nat.zero_min, hsub]
  · unfold update_screen
    simp only [hdraw]
    rfl

/-- C18 (as stated, refuted): `delete_char` on the one-byte line `"a"` computes
`size - 1 = 0` and stores the length 0: nothing wraps around, the value is `1 - 1` and
lies in `[0, 1]`. -/
theorem single_byte_line_does_not_wrap :
    ∃ b line1, delete_char line_a (cursor_at 0) = some (b, cursor_at 0)
      ∧ b.data[0]? = some line1
      ∧ size_sub 1 1 = 1 - 1
      ∧ line1.size = 0
      ∧ line1.size ≤ 1 :=
  ⟨_, _, rfl, rfl, by decide, rfl, by decide⟩

/-- C18 (amended): `delete_char` applied to a line of stored length 0 makes the
`size_t` computation `size - 1`, the bound of its loop, wrap around to `2 ^ 64 - 1`, a
value outside `[0, old length]`; the loop then runs off the storage of the line and
`delete_char` does not return, so the stored length is not decremented. Applied to a
line of stored length 1 it computes `size - 1 = 0`, stores the length 0 and nothing
wraps around. -/
theorem delete_char_wraps_only_at_zero (buf : Buffer) (state : State) (line : SubBuffer)
    (hy : buf.data[state.cursor.y]? = some line) :
    (line.size = 0 →
      delete_char_last line = SIZE_MOD - 1 ∧ ¬ delete_char_last line ≤ line.size
        ∧ delete_char buf state = none)
    ∧ (line.size = 1 →
      delete_char_last line = 0 ∧ delete_char_last line ≤ line.size
        ∧ ∃ buf1 line1, delete_char buf state = some (buf1, state)
          ∧ buf1.data[state.cursor.y]? = some line1
          ∧ line1.size = 0) := by
  constructor
  · intro h0
    obtain ⟨h1, h2⟩ := delete_char_empty buf state line hy h0
    refine ⟨h1, ?_, h2⟩
    rw [h1, h0]
    decide
  · intro h1
    have hl : delete_char_last line = 0 := by
      unfold delete_char_last
      rw [h1]
      decide
    obtain ⟨buf1, line1, e, hy1, hs1, _, _⟩ :=
      delete_char_framed buf state line hy (by omega)
    refine ⟨hl, by rw [hl]; exact Nat.zero_le _, buf1, line1, e, hy1, ?_⟩
    rw [hs1]
    exact hl

/-- C18 witness: `delete_char` on the empty line. -/
theorem delete_char_wraps_only_at_zero_witness :
    delete_char_last (SubBuffer.ofBytes []) = 18446744073709551615
      ∧ delete_char empty_line (cursor_at 0) = none := by
  obtain ⟨h0, _⟩ :=
    delete_char_wraps_only_at_zero empty_line (cursor_at 0) (SubBuffer.ofBytes []) rfl
  exact ⟨(h0 rfl).1, (h0 rfl).2.2⟩

/-- C19 (the code at the failing input): for the line `"hello
"` (stored length 6) with
one pending byte at column 0, `insert_line` asks `realloc` for 7 bytes, and `memmove`
reads the indices `[0, 7)` and writes the indices `[1, 8)`: the sentinel is written at
index 7, outside the 7 bytes requested. -/
theorem insert_line_writes_past_request :
    insert_line_capacity (SubBuffer.ofBytes hello_bytes) commit_only = 7
    ∧ insert_line_accesses (SubBuffer.ofBytes hello_bytes) commit_only
        = [(0, 7), (1, 8), (0, 1)]
    ∧ ¬ (∀ r ∈ insert_line_accesses (SubBuffer.ofBytes hello_bytes) commit_only,
          r.2 ≤ insert_line_capacity (SubBuffer.ofBytes hello_bytes) commit_only) := by
  decide

/-- C20 (the code at the failing input): the file of the one byte `a` loads as one line
of stored length 1. From the initial state `x` leaves row 0, the cursor row, a line of
stored length 0; on a second `x` the loop bound `size - 1` of `delete_char` is
`2 ^ 64 - 1`, the loop runs off the storage of the line and the step has no result. -/
theorem delete_on_emptied_line_has_no_result :
    (buffer_from_file [97]).data.map (fun l => (l.content, l.size)) = [([97], 1)]
    ∧ line_a.data.map (fun l => (l.content, l.size)) = [([97], 1)]
    ∧ (∃ b s line, run_keys line_a initial ['x'.toNat] = some (b, s)
        ∧ s = initial
        ∧ b.data[s.cursor.y]? = some line
        ∧ line.size = 0
        ∧ delete_char_last line = SIZE_MOD - 1
        ∧ handle_keypress b s 'x'.toNat = none)
    ∧ (run_keys line_a initial ['x'.toNat, 'x'.toNat]).isSome = false :=
  ⟨by decide, by decide, ⟨_, _, _, rfl, rfl, rfl, rfl, by decide, rfl⟩, by decide⟩

end TextEditor
